import Mathlib

/-!
Verification of the PowerPC64 ELFv1 linker backend (`elf/arch-ppc64v1.cc`).

We shallowly embed the backend's data model and operations: machine
integers are `Nat` (for unsigned values, reduced `% 2^64` where C++
wraps) or `Int` (for signed `i64` values), byte buffers are `List Nat`
of byte values, and fallible passes return `Except String`.  Every
definition is translated from the C++ source; the few helpers that live
in shared headers rather than in the backend file are modelled from the
specification and flagged as such in their doc comments.
-/

namespace PPC64V1

/-- `2^64`, the modulus of the C++ `u64` type. -/
def U64 : Nat := 2 ^ 64

/-- Wrapping `u64` subtraction: the value of `a - b` computed in C++
unsigned 64-bit arithmetic. -/
def u64sub (a b : Nat) : Nat := (a % U64 + (U64 - b % U64)) % U64

/-- Interpret a `u64` bit pattern as the signed `i64` with the same
low 64 bits (the C++ `u64`→`i64` conversion). -/
def toSigned64 (n : Nat) : Int :=
  if n % U64 < 2 ^ 63 then (n % U64 : Int) else (n % U64 : Int) - (U64 : Int)

/-- The `u64` bit pattern of an `Int` (the C++ `i64`→`u64` conversion). -/
def toU64 (x : Int) : Nat := (x.emod (U64 : Int)).toNat

/-- Source: `static u64 lo(u64 x) { return x & 0xffff; }` -/
def lo (x : Nat) : Nat := x &&& 0xffff

/-- Source: `static u64 hi(u64 x) { return x >> 16; }` -/
def hi (x : Nat) : Nat := x >>> 16

/-- Source: `static u64 ha(u64 x) { return (x + 0x8000) >> 16; }`
(the addition wraps at `2^64`). -/
def ha (x : Nat) : Nat := ((x + 0x8000) % U64) >>> 16

/-- Source: `static u64 high(u64 x) { return (x >> 16) & 0xffff; }` -/
def high (x : Nat) : Nat := (x >>> 16) &&& 0xffff

/-- Source: `static u64 higha(u64 x) { return ((x + 0x8000) >> 16) & 0xffff; }` -/
def higha (x : Nat) : Nat := (((x + 0x8000) % U64) >>> 16) &&& 0xffff

/-- Source: `static u64 higher(u64 x) { return (x >> 32) & 0xffff; }` -/
def higher (x : Nat) : Nat := (x >>> 32) &&& 0xffff

/-- Source: `static u64 highest(u64 x) { return x >> 48; }` -/
def highest (x : Nat) : Nat := x >>> 48

/-- Modelled from the spec: `sign_extend16`, the sign extension of a
16-bit half-word used when the `ha`/`lo` halves are summed at runtime
("compensates for sign-extension of the low half"). -/
def sign_extend16 (n : Nat) : Int :=
  if n % 0x10000 < 0x8000 then (n % 0x10000 : Int) else (n % 0x10000 : Int) - 0x10000

/-- Big-endian serialization of a 32-bit word (`ub32` store). -/
def be32 (w : Nat) : List Nat :=
  [(w >>> 24) &&& 0xff, (w >>> 16) &&& 0xff, (w >>> 8) &&& 0xff, w &&& 0xff]

/-- Big-endian serialization of a 64-bit word (`ub64` store). -/
def be64 (w : Nat) : List Nat :=
  [(w >>> 56) &&& 0xff, (w >>> 48) &&& 0xff, (w >>> 40) &&& 0xff, (w >>> 32) &&& 0xff,
   (w >>> 24) &&& 0xff, (w >>> 16) &&& 0xff, (w >>> 8) &&& 0xff, w &&& 0xff]

/-- Overwrite `len bytes` bytes of `buf` starting at byte offset `off`
(the effect of an in-place `memcpy`/store into a buffer). -/
def writeBytesAt (buf : List Nat) (off : Nat) (bytes : List Nat) : List Nat :=
  buf.take off ++ bytes ++ buf.drop (off + bytes.length)

/-- The instruction template of `write_plt_header`: eleven instruction
words followed by two zero words that are later overwritten by the
8-byte displacement quad. -/
def plt_hdr_insn : List Nat :=
  [0x7d8802a6, -- mflr    r12
   0x429f0005, -- bcl     20, 31, 4
   0x7d6802a6, -- mflr    r11
   0xe84b0024, -- ld      r2,36(r11)
   0x7d8803a6, -- mtlr    r12
   0x7d625a14, -- add     r11,r2,r11
   0xe98b0000, -- ld      r12,0(r11)
   0xe84b0008, -- ld      r2,8(r11)
   0x7d8903a6, -- mtctr   r12
   0xe96b0010, -- ld      r11,16(r11)
   0x4e800420, -- bctr
   0x00000000, 0x00000000]

/-- `write_plt_header`: copies the template into the buffer and stores
`ctx.gotplt->shdr.sh_addr - ctx.plt->shdr.sh_addr - 8` as a big-endian
64-bit word at byte offset 44. -/
def write_plt_header (gotplt_addr plt_addr : Nat) : List Nat :=
  writeBytesAt (plt_hdr_insn.flatMap be32) 44
    (be64 (u64sub (u64sub gotplt_addr plt_addr) 8))

/-- `write_plt_entry`: `li %r0, PLT_INDEX` followed by `b plt0` with
the 24-bit branch displacement `plt.addr - sym.get_plt_addr - 4`.  The
`i64` offset's low 24 bits coincide with the bits of its `u64` pattern. -/
def write_plt_entry (plt_addr sym_plt_addr plt_idx : Nat) : List Nat :=
  be32 (0x38000000 ||| plt_idx) ++
  be32 (0x4b000000 ||| (u64sub (u64sub plt_addr sym_plt_addr) 4 &&& 0xffffff))

/-- A symbol as seen by the output `.opd` section: its address under
the `NO_PLT | NO_OPD` modifiers and its assigned OPD slot index. -/
structure OpdSym where
  addrNoPltNoOpd : Nat
  opd_idx : Nat

/-- The `PPC64OpdSection` output section: an ordered list of registered
symbols plus the accumulated `sh_size`. -/
structure PPC64OpdSection where
  symbols : List OpdSym
  sh_size : Nat

/-- Modelled from the spec: `PPC64OpdSection::ENTRY_SIZE`, the 24-byte
function-descriptor record size ("entry size = 24 bytes"); the constant
is declared in a header outside the backend file. -/
def PPC64OpdSection.ENTRY_SIZE : Nat := 24

/-- `PPC64OpdSection::add_symbol`: assigns the symbol the next OPD
index (`symbols.size()`), appends it, and grows `sh_size` by
`ENTRY_SIZE`. -/
def PPC64OpdSection.add_symbol (s : PPC64OpdSection) (sym : OpdSym) : PPC64OpdSection :=
  { symbols := s.symbols ++ [{ sym with opd_idx := s.symbols.length }],
    sh_size := s.sh_size + PPC64OpdSection.ENTRY_SIZE }

/-- `PPC64OpdSection::copy_buf`: for each registered symbol, in order,
three big-endian 64-bit words: `sym->get_addr(ctx, NO_PLT | NO_OPD)`,
`ctx.TOC->value`, `0`. -/
def PPC64OpdSection.copy_buf (s : PPC64OpdSection) (toc_value : Nat) : List Nat :=
  s.symbols.flatMap (fun sym => be64 sym.addrNoPltNoOpd ++ be64 toc_value ++ be64 0)

/-- A target symbol of a range-extension thunk: the capability bits and
addresses the emitter reads (`has_got`, `has_plt`, `get_got_addr`,
`get_gotplt_addr`, `get_addr(NO_OPD)`). -/
structure ThunkSym where
  has_got : Bool
  has_plt : Bool
  got_addr : Nat
  gotplt_addr : Nat
  addr_no_opd : Nat
deriving DecidableEq

/-- The `pltgot_thunk` template of `RangeExtensionThunk::copy_buf`. -/
def pltgot_thunk : List Nat :=
  [0xf8410028, -- std   %r2, 40(%r1)
   0x3d820000, -- addis %r12, %r2,  foo@got@toc@ha
   0xe98c0000, -- ld    %r12, foo@got@toc@lo(%r12)
   0xe84c0008, -- ld    %r2,  8(%r12)
   0xe98c0000, -- ld    %r12, 0(%r12)
   0x7d8903a6, -- mtctr %r12
   0x4e800420] -- bctr

/-- The `plt_thunk` template of `RangeExtensionThunk::copy_buf`. -/
def plt_thunk : List Nat :=
  [0xf8410028, -- std   %r2, 40(%r1)
   0x3d820000, -- addis %r12, %r2,  foo@gotplt@toc@ha
   0x398c0000, -- addi  %r12, %r12, foo@gotplt@toc@lo
   0xe84c0008, -- ld    %r2,  8(%r12)
   0xe98c0000, -- ld    %r12, 0(%r12)
   0x7d8903a6, -- mtctr %r12
   0x4e800420] -- bctr

/-- The `local_thunk` template of `RangeExtensionThunk::copy_buf`. -/
def local_thunk : List Nat :=
  [0x3d820000, -- addis r12, r2,  foo@toc@ha
   0x398c0000, -- addi  r12, r12, foo@toc@lo
   0x7d8903a6, -- mtctr r12
   0x4e800420, -- bctr
   0x60000000, -- nop
   0x60000000, -- nop
   0x60000000] -- nop

/-- `loc[i] |= v`: or a value into the `i`-th 32-bit word of a stub. -/
def setOr (l : List Nat) (i v : Nat) : List Nat := l.set i (l.getD i 0 ||| v)

/-- The per-symbol body of `RangeExtensionThunk::copy_buf`: pick the
template by `has_got` / `has_plt`, then or the `higha`/`lo` halves of
the TOC-relative displacement into the two immediate fields.  The `i64`
value's `u64` bit pattern is `u64sub` of the two addresses. -/
def RangeExtensionThunk.write_one (toc_value : Nat) (sym : ThunkSym) : List Nat :=
  if sym.has_got then
    let val := u64sub sym.got_addr toc_value
    setOr (setOr pltgot_thunk 1 (higha val)) 2 (lo val)
  else if sym.has_plt then
    let val := u64sub sym.gotplt_addr toc_value
    setOr (setOr plt_thunk 1 (higha val)) 2 (lo val)
  else
    let val := u64sub sym.addr_no_opd toc_value
    setOr (setOr local_thunk 0 (higha val)) 1 (lo val)

/-- `RangeExtensionThunk::copy_buf`: one 7-word stub per target symbol,
written at disjoint `thunk_size` slots (modelled as a list of stubs). -/
def RangeExtensionThunk.copy_buf (toc_value : Nat) (symbols : List ThunkSym) :
    List (List Nat) :=
  symbols.map (RangeExtensionThunk.write_one toc_value)

/-- Modelled from the spec: `sign_extend(val, size)` from the generic
linker header (not part of the backend file): keeps the low `size + 1`
bits of the value and sign-extends from bit `size` ("tested via
sign-extension idempotence on 25 bits — the PPC branch offset is 26
bits"). -/
def sign_extend (x : Int) (size : Nat) : Int :=
  let m := x.emod (2 ^ (size + 1))
  if m < 2 ^ size then m else m - 2 ^ (size + 1)

/-- Modelled from the spec: `bits(val, hi, lo)` from the generic linker
header (not part of the backend file): the bit field `[h:l]` of the
`u64` pattern ("OR `((val >> 2) & 0x00ffffff) << 2` into the
instruction"). -/
def bits (val : Nat) (h l : Nat) : Nat := (val >>> l) &&& (2 ^ (h - l + 1) - 1)

/-- The fields of a symbol read by the `R_PPC64_REL24` branch of
`InputSection::apply_reloc_alloc`. -/
structure Rel24Sym where
  addr_no_opd : Nat
  has_plt : Bool
deriving DecidableEq

/-- The outcome of applying one `R_PPC64_REL24` relocation: whether a
range error was reported, the patched instruction word, and the word
following the relocation target. -/
structure Rel24Result where
  range_error : Bool
  insn : Nat
  next_insn : Nat
deriving DecidableEq

/-- The `R_PPC64_REL24` case of `InputSection::apply_reloc_alloc`.
`A` is the relocation addend, `P` the relocated place, `thunk_addr` the
precomputed `thunk.get_addr(ref.sym_idx)` for this relocation, `insn`
the 32-bit word at the target and `next_insn` the following word. -/
def apply_rel24 (sym : Rel24Sym) (A : Int) (P : Nat) (thunk_addr : Nat)
    (insn next_insn : Nat) : Rel24Result :=
  let val0 : Int := toSigned64 (toU64 ((sym.addr_no_opd : Int) + A - (P : Int)))
  let val : Int :=
    if sym.has_plt || decide (sign_extend val0 25 ≠ val0) then
      toSigned64 (toU64 ((thunk_addr : Int) + A - (P : Int)))
    else val0
  let range_error := decide (val < -(2 ^ 25)) || decide ((2 ^ 25 : Int) ≤ val)
  let insn2 := insn ||| (bits (toU64 val) 25 2 <<< 2)
  let next2 :=
    if sym.has_plt && (next_insn == 0x60000000) then 0xe8410028 else next_insn
  ⟨range_error, insn2, next2⟩

/-- Symbol types distinguished by the backend. -/
inductive SymType where
  | STT_FUNC
  | STT_GNU_IFUNC
  | STT_SECTION
  | STT_NOTYPE
deriving DecidableEq, Fintype

/-- The PPC64v1 relocation types named by the backend file, plus a
constructor standing for every type it does not name. -/
inductive RelType where
  | R_NONE
  | R_PPC64_ADDR64
  | R_PPC64_ADDR32
  | R_PPC64_TOC
  | R_PPC64_TOC16_HA
  | R_PPC64_TOC16_LO
  | R_PPC64_TOC16_DS
  | R_PPC64_TOC16_LO_DS
  | R_PPC64_REL24
  | R_PPC64_REL32
  | R_PPC64_REL64
  | R_PPC64_REL16_HA
  | R_PPC64_REL16_LO
  | R_PPC64_PLT16_HA
  | R_PPC64_PLT16_HI
  | R_PPC64_PLT16_LO
  | R_PPC64_PLT16_LO_DS
  | R_PPC64_PLTSEQ
  | R_PPC64_PLTCALL
  | R_PPC64_GOT_TPREL16_HA
  | R_PPC64_GOT_TPREL16_LO_DS
  | R_PPC64_GOT_TLSGD16_HA
  | R_PPC64_GOT_TLSGD16_LO
  | R_PPC64_GOT_TLSLD16_HA
  | R_PPC64_GOT_TLSLD16_LO
  | R_PPC64_TLS
  | R_PPC64_TLSGD
  | R_PPC64_TLSLD
  | R_PPC64_DTPREL16_HA
  | R_PPC64_DTPREL16_LO
  | R_PPC64_DTPREL64
  | R_PPC64_TPREL16_HA
  | R_PPC64_TPREL16_LO
  | R_PPC64_UNKNOWN
deriving DecidableEq, Fintype

/-- The fields of a resolved symbol read by
`InputSection::scan_relocations`. -/
structure ScanSym where
  is_ifunc : Bool
  stt : SymType
  is_imported : Bool
deriving DecidableEq, Fintype

/-- The per-symbol `NEEDS_*` capability flags the scanner may or into
the symbol's atomic flag bitset. -/
structure ScanFlags where
  needs_got : Bool
  needs_plt : Bool
  needs_opd : Bool
  needs_gottp : Bool
  needs_tlsgd : Bool
deriving DecidableEq

/-- What one loop iteration of `scan_relocations` contributes: flags
or-ed into the symbol, the store to the process-wide
`ctx.needs_tlsld`, whether the default branch's `Fatal` fires, and the
increment of `file.num_dynrel`. -/
structure ScanResult where
  flags : ScanFlags
  needs_tlsld : Bool
  fatal : Bool
  num_dynrel_inc : Nat
deriving DecidableEq

/-- Modelled from the spec: `scan_toc_rel`, the generic
"TOC-relative / copy-rel / dyn-rel" scan helper, lives outside the
backend file and is scoped out by the spec as generic linker plumbing
deciding dynamic-relocation emission; it is modelled as not touching
the PPC64-specific `NEEDS_*` flag set. -/
def scan_toc_rel (f : ScanFlags) : ScanFlags := f

/-- One loop iteration of `InputSection::scan_relocations` for a
relocation with a resolved symbol: the `R_NONE` skip, the ifunc and
function-typed preambles, then the dispatch on the relocation type. -/
def scan_relocation (rel_type : RelType) (sym : ScanSym) : ScanResult :=
  if rel_type = .R_NONE then ⟨⟨false, false, false, false, false⟩, false, false, 0⟩
  else
    let f : ScanFlags :=
      { needs_got := sym.is_ifunc, needs_plt := sym.is_ifunc,
        needs_opd := sym.is_ifunc, needs_gottp := false, needs_tlsgd := false }
    let f : ScanFlags :=
      if rel_type ≠ .R_PPC64_REL24 ∧ sym.stt = .STT_FUNC then
        { f with needs_opd := true }
      else f
    match rel_type with
    | .R_PPC64_ADDR64 =>
        if sym.is_ifunc then ⟨f, false, false, 1⟩ else ⟨scan_toc_rel f, false, false, 0⟩
    | .R_PPC64_TOC => ⟨scan_toc_rel f, false, false, 0⟩
    | .R_PPC64_GOT_TPREL16_HA => ⟨{ f with needs_gottp := true }, false, false, 0⟩
    | .R_PPC64_REL24 =>
        if sym.is_imported then ⟨{ f with needs_plt := true }, false, false, 0⟩
        else ⟨f, false, false, 0⟩
    | .R_PPC64_PLT16_HA => ⟨{ f with needs_got := true }, false, false, 0⟩
    | .R_PPC64_GOT_TLSGD16_HA => ⟨{ f with needs_tlsgd := true }, false, false, 0⟩
    | .R_PPC64_GOT_TLSLD16_HA => ⟨f, true, false, 0⟩
    | .R_PPC64_REL64 => ⟨f, false, false, 0⟩
    | .R_PPC64_TOC16_HA => ⟨f, false, false, 0⟩
    | .R_PPC64_TOC16_LO => ⟨f, false, false, 0⟩
    | .R_PPC64_TOC16_LO_DS => ⟨f, false, false, 0⟩
    | .R_PPC64_TOC16_DS => ⟨f, false, false, 0⟩
    | .R_PPC64_REL16_HA => ⟨f, false, false, 0⟩
    | .R_PPC64_REL16_LO => ⟨f, false, false, 0⟩
    | .R_PPC64_PLT16_HI => ⟨f, false, false, 0⟩
    | .R_PPC64_PLT16_LO => ⟨f, false, false, 0⟩
    | .R_PPC64_PLT16_LO_DS => ⟨f, false, false, 0⟩
    | .R_PPC64_PLTSEQ => ⟨f, false, false, 0⟩
    | .R_PPC64_PLTCALL => ⟨f, false, false, 0⟩
    | .R_PPC64_TPREL16_HA => ⟨f, false, false, 0⟩
    | .R_PPC64_TPREL16_LO => ⟨f, false, false, 0⟩
    | .R_PPC64_GOT_TPREL16_LO_DS => ⟨f, false, false, 0⟩
    | .R_PPC64_GOT_TLSGD16_LO => ⟨f, false, false, 0⟩
    | .R_PPC64_GOT_TLSLD16_LO => ⟨f, false, false, 0⟩
    | .R_PPC64_TLS => ⟨f, false, false, 0⟩
    | .R_PPC64_TLSGD => ⟨f, false, false, 0⟩
    | .R_PPC64_TLSLD => ⟨f, false, false, 0⟩
    | .R_PPC64_DTPREL16_HA => ⟨f, false, false, 0⟩
    | .R_PPC64_DTPREL16_LO => ⟨f, false, false, 0⟩
    | _ => ⟨f, false, true, 0⟩

/-- A relocation record `ElfRel<E>` `{r_offset, r_type, r_sym,
r_addend}`.  `i64` addends are represented by their `u64` bit
patterns, matching how the backend compares them against `u64`
offsets. -/
structure ElfRel where
  r_offset : Nat
  r_type : RelType
  r_sym : Nat
  r_addend : Nat
deriving DecidableEq

/-- The fields of a symbol read by
`InputSection::apply_reloc_nonalloc`: whether `sym.file` is set and
`sym.get_addr(ctx)`. -/
structure NonallocSym where
  resolved : Bool
  addr : Nat
deriving DecidableEq

/-- A recoverable diagnostic recorded while applying relocations:
either an undefined-reference error (`record_undef_error`) or an
out-of-range value (`Error`, from the `check` lambda). -/
inductive LinkError where
  | undef (rel : ElfRel)
  | out_of_range (rel : ElfRel) (val : Int)
deriving DecidableEq

/-- One loop iteration of `InputSection::apply_reloc_nonalloc`.
`symtab` gives the symbol for an index (`file.symbols[rel.r_sym]`);
`frag` is the host's `get_fragment` and `tomb` its `get_tombstone`
(generic linker parts outside the backend file, modelled from the spec
as host-supplied inputs); `dtp_addr` is `ctx.dtp_addr`.  The default
branch's `Fatal` aborts the link, modelled as `Except.error`. -/
def nonalloc_step (symtab : Nat → NonallocSym)
    (frag : ElfRel → Option (Nat × Nat))
    (tomb : NonallocSym → Option (Nat × Nat) → Option Nat) (dtp_addr : Nat)
    (buf : List Nat) (errs : List LinkError) (rel : ElfRel) :
    Except String (List Nat × List LinkError) :=
  if rel.r_type = .R_NONE then .ok (buf, errs)
  else
    let sym := symtab rel.r_sym
    if sym.resolved = false then .ok (buf, errs ++ [.undef rel])
    else
      let fr := frag rel
      let S : Nat := match fr with | some (fa, _) => fa | none => sym.addr
      let A : Nat := match fr with | some (_, fad) => fad | none => rel.r_addend
      match rel.r_type with
      | .R_PPC64_ADDR64 =>
          match tomb sym fr with
          | some tv => .ok (writeBytesAt buf rel.r_offset (be64 tv), errs)
          | none => .ok (writeBytesAt buf rel.r_offset (be64 ((S + A) % U64)), errs)
      | .R_PPC64_ADDR32 =>
          let val : Int := toSigned64 ((S + A) % U64)
          let errs2 :=
            if val < 0 ∨ (2 ^ 32 : Int) ≤ val then errs ++ [.out_of_range rel val]
            else errs
          .ok (writeBytesAt buf rel.r_offset (be32 (toU64 val % 2 ^ 32)), errs2)
      | .R_PPC64_DTPREL64 =>
          .ok (writeBytesAt buf rel.r_offset (be64 (u64sub ((S + A) % U64) dtp_addr)),
               errs)
      | _ => .error "apply_reloc_nonalloc: unsupported relocation"

/-- `InputSection::apply_reloc_nonalloc`: fold the per-relocation step
over the section's relocation array in order. -/
def apply_reloc_nonalloc (symtab : Nat → NonallocSym)
    (frag : ElfRel → Option (Nat × Nat))
    (tomb : NonallocSym → Option (Nat × Nat) → Option Nat) (dtp_addr : Nat)
    (rels : List ElfRel) (buf : List Nat) (errs : List LinkError) :
    Except String (List Nat × List LinkError) :=
  rels.foldlM (fun st r => nonalloc_step symtab frag tomb dtp_addr st.1 st.2 r)
    (buf, errs)

/-- A symbol record `Symbol<E>` as the OPD rewriter sees it: whether
`sym->file == file`, the input section (an index into
`file.sections`, or `none`), `sym->value`, the symbol type, and
`sym->sym_idx`. -/
structure Symbol where
  owned : Bool
  isec : Option Nat
  value : Nat
  stt : SymType
  sym_idx : Nat
deriving DecidableEq

/-- The value `file->symbols[i]` yields out of bounds never occurs in
a well-formed link; looking it up through `getD` with this default
keeps the embedding total (the default is owned by no file). -/
def defaultSymbol : Symbol := ⟨false, none, 0, .STT_NOTYPE, 0⟩

/-- An input section: its name, liveness bit, and relocation array. -/
structure InputSection where
  name : String
  is_alive : Bool
  rels : List ElfRel
deriving DecidableEq

/-- An object file: its symbol table and its (possibly null) input
sections. -/
structure ObjectFile where
  symbols : List Symbol
  sections : List (Option InputSection)
deriving DecidableEq

/-- `get_opd_section`: the first non-null input section named
`".opd"`, as an index into `file.sections`. -/
def get_opd_section (file : ObjectFile) : Option Nat :=
  file.sections.findIdx?
    (fun o => match o with | some isec => isec.name = ".opd" | none => false)

/-- `get_relocation_at`: `std::lower_bound` over the offset-sorted
relocation array (the first entry whose offset is not less than
`offset`), then the end/exact-offset checks. -/
def get_relocation_at (rels : List ElfRel) (offset : Nat) : Option ElfRel :=
  match rels.find? (fun r => decide (offset ≤ r.r_offset)) with
  | none => none
  | some r => if r.r_offset = offset then some r else none

/-- An `OpdSymbol` entry `{r_offset, sym}`; the `Symbol<E> *sym`
pointer is modelled by the symbol value it refers to after the
rewrite updated it. -/
structure OpdSymbol where
  r_offset : Nat
  sym : Symbol
deriving DecidableEq

/-- `get_opd_sym_at`: `std::lower_bound` over the sorted `opd_syms`
list, then the end/exact-offset checks. -/
def get_opd_sym_at (syms : List OpdSymbol) (offset : Nat) : Option Symbol :=
  match syms.find? (fun e => decide (offset ≤ e.r_offset)) with
  | none => none
  | some e => if e.r_offset = offset then some e.sym else none

/-- The body of the first loop of `ppc64v1_rewrite_opd` for the `j`-th
symbol: skip symbols not owned by the file, not in `.opd`, or not
function-typed; otherwise find the `.opd` relocation at `sym->value`
(`Fatal` if missing), require it to name a `SECTION` symbol (`Fatal`
otherwise), record `(old value, sym)` in `opd_syms`, and redirect the
symbol to the section symbol's section with the relocation's addend as
its new value.  Lookups read the current, partially updated symbol
table, as the C++ loop does. -/
def rewrite_opd_step (opdIdx : Nat) (opdRels : List ElfRel)
    (acc : List Symbol × List OpdSymbol) (j : Nat) :
    Except String (List Symbol × List OpdSymbol) :=
  let syms := acc.1
  let sym := syms.getD j defaultSymbol
  if sym.owned = false ∨ sym.isec ≠ some opdIdx then .ok acc
  else if sym.stt ≠ .STT_FUNC ∧ sym.stt ≠ .STT_GNU_IFUNC then .ok acc
  else
    match get_relocation_at opdRels sym.value with
    | none => .error "cannot find a relocation in .opd"
    | some rel =>
      let sym2 := syms.getD rel.r_sym defaultSymbol
      if sym2.stt ≠ .STT_SECTION then .error "bad relocation in .opd"
      else
        let sym' := { sym with isec := sym2.isec, value := rel.r_addend }
        .ok (syms.set j sym', acc.2 ++ [⟨sym.value, sym'⟩])

/-- The first loop of `ppc64v1_rewrite_opd`, iterating
`rewrite_opd_step` over the given symbol indices in order. -/
def rewrite_opd_go (opdIdx : Nat) (opdRels : List ElfRel) :
    List Nat → (List Symbol × List OpdSymbol) →
    Except String (List Symbol × List OpdSymbol)
  | [], acc => .ok acc
  | j :: rest, acc =>
    match rewrite_opd_step opdIdx opdRels acc j with
    | .error e => .error e
    | .ok acc' => rewrite_opd_go opdIdx opdRels rest acc'

/-- The body of the second loop of `ppc64v1_rewrite_opd` for one
relocation: if its symbol still lives in `.opd`, find the function
symbol recorded at offset `r_addend` (`Fatal` if missing) and retarget
the relocation to it with a zero addend. -/
def rewrite_opd_rel (syms : List Symbol) (opdIdx : Nat)
    (opd_syms : List OpdSymbol) (r : ElfRel) : Except String ElfRel :=
  let sym := syms.getD r.r_sym defaultSymbol
  if sym.isec ≠ some opdIdx then .ok r
  else
    match get_opd_sym_at opd_syms r.r_addend with
    | none => .error "cannot find a symbol in .opd"
    | some real_sym => .ok { r with r_sym := real_sym.sym_idx, r_addend := 0 }

/-- Map `rewrite_opd_rel` over a relocation array in order, stopping
at the first `Fatal`. -/
def rewrite_opd_rels (syms : List Symbol) (opdIdx : Nat)
    (opd_syms : List OpdSymbol) : List ElfRel → Except String (List ElfRel)
  | [] => .ok []
  | r :: rest =>
    match rewrite_opd_rel syms opdIdx opd_syms r with
    | .error e => .error e
    | .ok r' =>
      match rewrite_opd_rels syms opdIdx opd_syms rest with
      | .error e => .error e
      | .ok rest' => .ok (r' :: rest')

/-- The second loop of `ppc64v1_rewrite_opd` for the section at index
`k`: skip null, dead, and the `.opd` section itself (pointer equality
with `opd` is index equality); otherwise rewrite its relocations. -/
def rewrite_opd_isec (syms : List Symbol) (opdIdx : Nat)
    (opd_syms : List OpdSymbol) (k : Nat) (osec : Option InputSection) :
    Except String (Option InputSection) :=
  match osec with
  | none => .ok none
  | some isec =>
    if isec.is_alive = false ∨ k = opdIdx then .ok (some isec)
    else
      match rewrite_opd_rels syms opdIdx opd_syms isec.rels with
      | .error e => .error e
      | .ok rels' => .ok (some { isec with rels := rels' })

/-- Iterate `rewrite_opd_isec` over the section list, threading the
section index. -/
def rewrite_opd_sections (syms : List Symbol) (opdIdx : Nat)
    (opd_syms : List OpdSymbol) :
    Nat → List (Option InputSection) → Except String (List (Option InputSection))
  | _, [] => .ok []
  | k, osec :: rest =>
    match rewrite_opd_isec syms opdIdx opd_syms k osec with
    | .error e => .error e
    | .ok osec' =>
      match rewrite_opd_sections syms opdIdx opd_syms (k + 1) rest with
      | .error e => .error e
      | .ok rest' => .ok (osec' :: rest')

/-- The per-file body of `ppc64v1_rewrite_opd` (the pass runs this on
every object file in parallel): find `.opd` (do nothing if absent),
mark it dead, move function symbols out of `.opd`, sort `opd_syms` by
offset (`std::stable_sort` by `<`, modelled by a stable merge sort
with `≤`), and rewrite relocations that refer to `.opd`. -/
def ppc64v1_rewrite_opd_file (file : ObjectFile) : Except String ObjectFile :=
  match get_opd_section file with
  | none => .ok file
  | some opdIdx =>
    match file.sections.getD opdIdx none with
    | none => .ok file
    | some opd =>
      let sections1 :=
        file.sections.set opdIdx (some { opd with is_alive := false })
      match rewrite_opd_go opdIdx opd.rels (List.range file.symbols.length)
          (file.symbols, []) with
      | .error e => .error e
      | .ok (syms1, opd_syms0) =>
        let opd_syms := opd_syms0.mergeSort (fun a b => a.r_offset ≤ b.r_offset)
        match rewrite_opd_sections syms1 opdIdx opd_syms 0 sections1 with
        | .error e => .error e
        | .ok sections2 => .ok { symbols := syms1, sections := sections2 }

/-- The filter of the first loop of `ppc64v1_rewrite_opd`: symbols
owned by this file, living in `.opd`, of type `FUNC` or `GNU_IFUNC`. -/
def filterCond (opdIdx : Nat) (s : Symbol) : Bool :=
  s.owned && decide (s.isec = some opdIdx) &&
    (decide (s.stt = .STT_FUNC) || decide (s.stt = .STT_GNU_IFUNC))

/-- The per-symbol effect of the first rewrite loop, stated against
the original symbol table (the sequential loop is proved equivalent to
this: symbol types are never mutated and `SECTION`-typed entries are
never rewritten, so the `sym2` lookups are order-independent). -/
def specUpdate (origSyms : List Symbol) (opdIdx : Nat) (opdRels : List ElfRel)
    (s : Symbol) : Symbol :=
  if filterCond opdIdx s = false then s
  else
    match get_relocation_at opdRels s.value with
    | none => s
    | some rel =>
      let sym2 := origSyms.getD rel.r_sym defaultSymbol
      if sym2.stt = .STT_SECTION then
        { s with isec := sym2.isec, value := rel.r_addend }
      else s

/-- The success condition of the first rewrite loop at one symbol: if
the symbol is selected, a relocation exists at its offset and names a
`SECTION`-typed symbol. -/
def specOk (origSyms : List Symbol) (opdIdx : Nat) (opdRels : List ElfRel)
    (s : Symbol) : Prop :=
  filterCond opdIdx s = true →
    ∃ rel, get_relocation_at opdRels s.value = some rel ∧
      (origSyms.getD rel.r_sym defaultSymbol).stt = .STT_SECTION

end PPC64V1

open PPC64V1

/-- Masking a bitwise-or with a low mask recovers the low operand when
the other operand has no bits below the mask width. -/
theorem or_and_mask (c b n : Nat) (hb : b < 2 ^ n)
    (hc : ∀ i, i < n → c.testBit i = false) : (c ||| b) &&& (2 ^ n - 1) = b := by
  apply Nat.eq_of_testBit_eq
  intro i
  rw [Nat.testBit_and, Nat.testBit_or, Nat.testBit_two_pow_sub_one]
  by_cases h : i < n
  · simp [h, hc i h]
  · have hbi : b.testBit i = false := by
      apply Nat.testBit_lt_two_pow
      exact lt_of_lt_of_le hb (Nat.pow_le_pow_right (by omega) (by omega))
    simp [h, hbi]

/-- **C9** (counterexample): with the claim's stated formulas
`hi(x) = (x >> 16) & 0xffff` and `ha(x) = ((x + 0x8000) >> 16) & 0xffff`
(which are the source's `high`/`higha`), both asserted identities fail
at `x = 0xffff8000`: the masked adjusted-high wraps to `0` there. -/
theorem c9_counterexample :
    ¬ ((((higha 0xffff8000 : Int) - high 0xffff8000 = 0 ∨
         (higha 0xffff8000 : Int) - high 0xffff8000 = 1)) ∧
       (higha 0xffff8000 : Int) * 2 ^ 16 + sign_extend16 (lo 0xffff8000) =
         (0xffff8000 : Int)) := by
  decide

/-- **C9** (amended): with the source's actual unmasked helpers
`hi(x) = x >> 16` and `ha(x) = (x + 0x8000) >> 16`, for every `x` in
`u64` range such that `x + 0x8000` does not wrap, `ha(x) - hi(x) ∈ {0,1}`
and `(ha(x) << 16) + sign_extend16(lo(x)) = x`. -/
theorem c9_ha_hi_lo_identities (x : Nat) (hx : x < U64) (hw : x + 0x8000 < U64) :
    (((ha x : Int) - hi x = 0 ∨ (ha x : Int) - hi x = 1)) ∧
    (ha x : Int) * 2 ^ 16 + sign_extend16 (lo x) = (x : Int) := by
  have h1 : ha x = (x + 0x8000) / 2 ^ 16 := by
    rw [ha, Nat.mod_eq_of_lt hw, Nat.shiftRight_eq_div_pow]
  have h2 : hi x = x / 2 ^ 16 := by
    rw [hi, Nat.shiftRight_eq_div_pow]
  have h3 : lo x = x % 2 ^ 16 := Nat.and_pow_two_sub_one_eq_mod x 16
  rw [h1, h2, h3, sign_extend16]
  by_cases hr : x % 2 ^ 16 % 0x10000 < 0x8000 <;> simp only [hr, if_true, if_false] <;>
    push_cast <;> omega

/-- **C9** witness. -/
theorem c9_witness :
    (3 < U64 ∧ 3 + 0x8000 < U64) ∧
    ((((ha 3 : Int) - hi 3 = 0 ∨ (ha 3 : Int) - hi 3 = 1)) ∧
     (ha 3 : Int) * 2 ^ 16 + sign_extend16 (lo 3) = (3 : Int)) :=
  ⟨⟨by decide, by decide⟩, c9_ha_hi_lo_identities 3 (by decide) (by decide)⟩

/-- **C7** (counterexample): the PLT header template is not 56 bytes
long — it is 52 bytes (11 instructions plus the 8-byte quad). -/
theorem c7_counterexample : ¬ ((write_plt_header 0x10000 0x20000).length = 56) := by
  decide

/-- **C7** (amended): the PLT header written by `write_plt_header` is a
52-byte template consisting of 11 instructions followed by an 8-byte
quad, and the 64-bit big-endian word at byte offset 44 of the header
equals `gotplt.addr - plt.addr - 8` (computed in wrapping `u64`
arithmetic). -/
theorem c7_plt_header (g p : Nat) :
    (write_plt_header g p).length = 52 ∧
    (write_plt_header g p).take 44 = (plt_hdr_insn.take 11).flatMap be32 ∧
    (write_plt_header g p).drop 44 = be64 (u64sub (u64sub g p) 8) := by
  have hrep : write_plt_header g p
      = (plt_hdr_insn.take 11).flatMap be32 ++ be64 (u64sub (u64sub g p) 8) ++ [] := rfl
  rw [hrep]
  refine ⟨?_, ?_, ?_⟩ <;>
    simp [plt_hdr_insn, be32, be64]

/-- **C8**: each PLT entry is exactly 8 bytes: `li r0, <plt_index>`
followed by a branch to plt0 whose 24-bit displacement field holds
`plt.addr - this_entry.addr - 4` truncated to 24 bits. -/
theorem c8_plt_entry (p e i : Nat) :
    (write_plt_entry p e i).length = 8 ∧
    (write_plt_entry p e i).take 4 = be32 (0x38000000 ||| i) ∧
    (write_plt_entry p e i).drop 4 =
      be32 (0x4b000000 ||| (u64sub (u64sub p e) 4 &&& 0xffffff)) ∧
    (0x4b000000 ||| (u64sub (u64sub p e) 4 &&& 0xffffff)) &&& 0xffffff =
      u64sub (u64sub p e) 4 % 2 ^ 24 := by
  refine ⟨rfl, rfl, rfl, ?_⟩
  have hmask : u64sub (u64sub p e) 4 &&& 0xffffff = u64sub (u64sub p e) 4 % 2 ^ 24 :=
    Nat.and_pow_two_sub_one_eq_mod _ 24
  have h := or_and_mask 0x4b000000 (u64sub (u64sub p e) 4 &&& 0xffffff) 24
    (by rw [hmask]; exact Nat.mod_lt _ (by omega)) (by decide)
  simpa [hmask] using h

/-- Concatenating constant-length chunks yields a buffer of proportional
length. -/
theorem flatMap_const_length {α : Type} (f : α → List Nat) (k : Nat)
    (hk : ∀ a, (f a).length = k) (l : List α) :
    (l.flatMap f).length = k * l.length := by
  induction l with
  | nil => simp
  | cons a t ih => simp [hk, ih]; ring

/-- The `i`-th `k`-byte chunk of a concatenation of constant-length
chunks is the chunk generated from the `i`-th element. -/
theorem flatMap_const_chunk {α : Type} (f : α → List Nat) (k : Nat)
    (hk : ∀ a, (f a).length = k) (l : List α) :
    ∀ (i : Nat) (h : i < l.length),
      ((l.flatMap f).drop (k * i)).take k = f (l.get ⟨i, h⟩) := by
  induction l with
  | nil => intro i h; simp at h
  | cons a t ih =>
    intro i h
    cases i with
    | zero =>
      show ((f a ++ t.flatMap f).drop (k * 0)).take k = f a
      rw [Nat.mul_zero, List.drop_zero]
      exact List.take_left' (hk a)
    | succ j =>
      have hj : j < t.length := by simp only [List.length_cons] at h; omega
      show ((f a ++ t.flatMap f).drop (k * (j + 1))).take k = f (t.get ⟨j, hj⟩)
      have h1 : k * (j + 1) = k + k * j := by ring
      have h2 : (f a ++ t.flatMap f).drop (k + k * j)
          = ((f a ++ t.flatMap f).drop k).drop (k * j) := by
        rw [List.drop_drop]
      rw [h1, h2, List.drop_left' (hk a)]
      exact ih j hj

/-- Folding `add_symbol` over a symbol list appends each symbol with
its registration index as `opd_idx` and accumulates `sh_size`. -/
theorem add_symbol_foldl (syms : List OpdSym) :
    ∀ acc : PPC64OpdSection,
      (syms.foldl PPC64OpdSection.add_symbol acc).symbols
        = acc.symbols ++
          syms.mapIdx (fun i s => { s with opd_idx := acc.symbols.length + i }) ∧
      (syms.foldl PPC64OpdSection.add_symbol acc).sh_size
        = acc.sh_size + PPC64OpdSection.ENTRY_SIZE * syms.length := by
  induction syms with
  | nil => intro acc; simp
  | cons a t ih =>
    intro acc
    obtain ⟨h1, h2⟩ := ih (acc.add_symbol a)
    constructor
    · rw [List.foldl_cons, h1]
      have hf : (fun i s => { s with opd_idx := (acc.add_symbol a).symbols.length + i })
          = (fun i (s : OpdSym) => { s with opd_idx := acc.symbols.length + (i + 1) }) := by
        funext i s
        simp [PPC64OpdSection.add_symbol]
        omega
      rw [hf]
      simp [PPC64OpdSection.add_symbol, List.mapIdx_cons]
    · rw [List.foldl_cons, h2]
      simp [PPC64OpdSection.add_symbol]
      ring

/-- The `i`-th registered symbol of the output `.opd` section carries
the `i`-th input symbol's address and the registration index `i`. -/
theorem add_symbol_foldl_get (syms : List OpdSym) (i : Nat) (h : i < syms.length) :
    (syms.foldl PPC64OpdSection.add_symbol ⟨[], 0⟩).symbols.getD i ⟨0, 0⟩
      = { addrNoPltNoOpd := (syms.get ⟨i, h⟩).addrNoPltNoOpd, opd_idx := i } := by
  obtain ⟨hsy, -⟩ := add_symbol_foldl syms ⟨[], 0⟩
  rw [hsy]
  simp only [List.nil_append]
  rw [List.getD_eq_getElem _ _ (by simpa using h)]
  simp [List.getElem_mapIdx, List.get_eq_getElem]

/-- **C5**: after registering `syms` in order with `add_symbol`
(registration order defines each symbol's OPD index), the section's
size is `24 * syms.length` and `copy_buf` emits, for the `i`-th
registered symbol, one 24-byte big-endian entry whose three 64-bit
words are the symbol's `NO_PLT | NO_OPD` address, `TOC.value`, and 0. -/
theorem c5_opd_copy_buf (syms : List OpdSym) (toc : Nat) (i : Nat)
    (h : i < syms.length) :
    (syms.foldl PPC64OpdSection.add_symbol ⟨[], 0⟩).sh_size = 24 * syms.length ∧
    ((syms.foldl PPC64OpdSection.add_symbol ⟨[], 0⟩).copy_buf toc).length
      = 24 * syms.length ∧
    ((syms.foldl PPC64OpdSection.add_symbol ⟨[], 0⟩).symbols.getD i
      ⟨0, 0⟩).opd_idx = i ∧
    (((syms.foldl PPC64OpdSection.add_symbol ⟨[], 0⟩).copy_buf toc).drop
        (24 * i)).take 24
      = be64 ((syms.get ⟨i, h⟩).addrNoPltNoOpd) ++ be64 toc ++ be64 0 := by
  obtain ⟨hsy, hsz⟩ := add_symbol_foldl syms ⟨[], 0⟩
  have hk : ∀ s : OpdSym,
      (be64 s.addrNoPltNoOpd ++ be64 toc ++ be64 0).length = 24 := fun s => rfl
  have hlen : (syms.foldl PPC64OpdSection.add_symbol ⟨[], 0⟩).symbols.length
      = syms.length := by
    rw [hsy]; simp
  have hb : i < (syms.foldl PPC64OpdSection.add_symbol ⟨[], 0⟩).symbols.length := by
    omega
  refine ⟨?_, ?_, ?_, ?_⟩
  · rw [hsz]; simp [PPC64OpdSection.ENTRY_SIZE]
  · rw [PPC64OpdSection.copy_buf, flatMap_const_length _ 24 hk, hlen]
  · rw [add_symbol_foldl_get syms i h]
  · rw [PPC64OpdSection.copy_buf, flatMap_const_chunk _ 24 hk _ i hb]
    have h5 : (syms.foldl PPC64OpdSection.add_symbol ⟨[], 0⟩).symbols.get ⟨i, hb⟩
        = (syms.foldl PPC64OpdSection.add_symbol ⟨[], 0⟩).symbols.getD i ⟨0, 0⟩ := by
      rw [List.get_eq_getElem]
      exact (List.getD_eq_getElem _ _ hb).symm
    rw [h5, add_symbol_foldl_get syms i h]


/-- Masking with `0xffff` is reduction modulo `2^16`. -/
theorem and_ffff_eq_mod (x : Nat) : x &&& 65535 = x % 65536 := by
  have h := Nat.and_pow_two_sub_one_eq_mod x 16
  norm_num at h
  exact h

/-- The adjusted-high half always fits in 16 bits. -/
theorem higha_lt (v : Nat) : higha v < 2 ^ 16 := by
  rw [higha, and_ffff_eq_mod]
  exact Nat.mod_lt _ (by omega)

/-- The low half always fits in 16 bits. -/
theorem lo_lt (v : Nat) : lo v < 2 ^ 16 := by
  rw [lo, and_ffff_eq_mod]
  exact Nat.mod_lt _ (by omega)

/-- **C6**: each emitted thunk stub is seven instruction words; the
GOT-thunk template is used when the symbol has a GOT slot, patching
words 1 and 2 with `higha`/`lo` of `got_addr - TOC.value`; otherwise
the PLT-thunk template with `higha`/`lo` of `gotplt_addr - TOC.value`;
otherwise the local-thunk template patching words 0 and 1 with
`higha`/`lo` of `addr_no_opd - TOC.value`.  The patched 16-bit
immediate fields decode back to the `higha`/`lo` halves. -/
theorem c6_thunk_stub (toc : Nat) (symbols : List ThunkSym) (i : Nat)
    (h : i < symbols.length) :
    ((RangeExtensionThunk.copy_buf toc symbols).getD i []).length = 7 ∧
    ((symbols.get ⟨i, h⟩).has_got = true →
      (RangeExtensionThunk.copy_buf toc symbols).getD i []
        = [0xf8410028,
           0x3d820000 ||| higha (u64sub (symbols.get ⟨i, h⟩).got_addr toc),
           0xe98c0000 ||| lo (u64sub (symbols.get ⟨i, h⟩).got_addr toc),
           0xe84c0008, 0xe98c0000, 0x7d8903a6, 0x4e800420]) ∧
    ((symbols.get ⟨i, h⟩).has_got = false → (symbols.get ⟨i, h⟩).has_plt = true →
      (RangeExtensionThunk.copy_buf toc symbols).getD i []
        = [0xf8410028,
           0x3d820000 ||| higha (u64sub (symbols.get ⟨i, h⟩).gotplt_addr toc),
           0x398c0000 ||| lo (u64sub (symbols.get ⟨i, h⟩).gotplt_addr toc),
           0xe84c0008, 0xe98c0000, 0x7d8903a6, 0x4e800420]) ∧
    ((symbols.get ⟨i, h⟩).has_got = false → (symbols.get ⟨i, h⟩).has_plt = false →
      (RangeExtensionThunk.copy_buf toc symbols).getD i []
        = [0x3d820000 ||| higha (u64sub (symbols.get ⟨i, h⟩).addr_no_opd toc),
           0x398c0000 ||| lo (u64sub (symbols.get ⟨i, h⟩).addr_no_opd toc),
           0x7d8903a6, 0x4e800420, 0x60000000, 0x60000000, 0x60000000]) ∧
    (∀ v : Nat, (0x3d820000 ||| higha v) &&& 0xffff = higha v ∧
      (0xe98c0000 ||| lo v) &&& 0xffff = lo v ∧
      (0x398c0000 ||| lo v) &&& 0xffff = lo v) := by
  have hx : (RangeExtensionThunk.copy_buf toc symbols).getD i []
      = RangeExtensionThunk.write_one toc (symbols.get ⟨i, h⟩) := by
    rw [RangeExtensionThunk.copy_buf, List.getD_eq_getElem _ _ (by simpa using h)]
    simp [List.get_eq_getElem]
  have hdec : ∀ v : Nat, (0x3d820000 ||| higha v) &&& 0xffff = higha v ∧
      (0xe98c0000 ||| lo v) &&& 0xffff = lo v ∧
      (0x398c0000 ||| lo v) &&& 0xffff = lo v := by
    intro v
    refine ⟨?_, ?_, ?_⟩
    · have := or_and_mask 0x3d820000 (higha v) 16 (higha_lt v) (by decide)
      simpa using this
    · have := or_and_mask 0xe98c0000 (lo v) 16 (lo_lt v) (by decide)
      simpa using this
    · have := or_and_mask 0x398c0000 (lo v) 16 (lo_lt v) (by decide)
      simpa using this
  refine ⟨?_, ?_, ?_, ?_, hdec⟩
  · rw [hx, RangeExtensionThunk.write_one]
    split
    · simp [setOr, pltgot_thunk]
    · split
      · simp [setOr, plt_thunk]
      · simp [setOr, local_thunk]
  · intro hg
    rw [hx, RangeExtensionThunk.write_one]
    simp only [List.get_eq_getElem] at hg ⊢
    simp [hg, setOr, pltgot_thunk]
  · intro hg hp
    rw [hx, RangeExtensionThunk.write_one]
    simp only [List.get_eq_getElem] at hg hp ⊢
    simp [hg, hp, setOr, plt_thunk]
  · intro hg hp
    rw [hx, RangeExtensionThunk.write_one]
    simp only [List.get_eq_getElem] at hg hp ⊢
    simp [hg, hp, setOr, local_thunk]

/-- **C6** witness. -/
theorem c6_witness :
    0 < ([⟨true, false, 0x12345, 0, 0⟩] : List ThunkSym).length ∧
    (((RangeExtensionThunk.copy_buf 0x8000
        ([⟨true, false, 0x12345, 0, 0⟩] : List ThunkSym)).getD 0 []).length = 7 ∧
     ((([⟨true, false, 0x12345, 0, 0⟩] : List ThunkSym).get
          ⟨0, by decide⟩).has_got = true →
       (RangeExtensionThunk.copy_buf 0x8000
           ([⟨true, false, 0x12345, 0, 0⟩] : List ThunkSym)).getD 0 []
         = [0xf8410028,
            0x3d820000 ||| higha (u64sub (([⟨true, false, 0x12345, 0, 0⟩] :
               List ThunkSym).get ⟨0, by decide⟩).got_addr 0x8000),
            0xe98c0000 ||| lo (u64sub (([⟨true, false, 0x12345, 0, 0⟩] :
               List ThunkSym).get ⟨0, by decide⟩).got_addr 0x8000),
            0xe84c0008, 0xe98c0000, 0x7d8903a6, 0x4e800420]) ∧
     ((([⟨true, false, 0x12345, 0, 0⟩] : List ThunkSym).get
          ⟨0, by decide⟩).has_got = false →
      (([⟨true, false, 0x12345, 0, 0⟩] : List ThunkSym).get
          ⟨0, by decide⟩).has_plt = true →
       (RangeExtensionThunk.copy_buf 0x8000
           ([⟨true, false, 0x12345, 0, 0⟩] : List ThunkSym)).getD 0 []
         = [0xf8410028,
            0x3d820000 ||| higha (u64sub (([⟨true, false, 0x12345, 0, 0⟩] :
               List ThunkSym).get ⟨0, by decide⟩).gotplt_addr 0x8000),
            0x398c0000 ||| lo (u64sub (([⟨true, false, 0x12345, 0, 0⟩] :
               List ThunkSym).get ⟨0, by decide⟩).gotplt_addr 0x8000),
            0xe84c0008, 0xe98c0000, 0x7d8903a6, 0x4e800420]) ∧
     ((([⟨true, false, 0x12345, 0, 0⟩] : List ThunkSym).get
          ⟨0, by decide⟩).has_got = false →
      (([⟨true, false, 0x12345, 0, 0⟩] : List ThunkSym).get
          ⟨0, by decide⟩).has_plt = false →
       (RangeExtensionThunk.copy_buf 0x8000
           ([⟨true, false, 0x12345, 0, 0⟩] : List ThunkSym)).getD 0 []
         = [0x3d820000 ||| higha (u64sub (([⟨true, false, 0x12345, 0, 0⟩] :
               List ThunkSym).get ⟨0, by decide⟩).addr_no_opd 0x8000),
            0x398c0000 ||| lo (u64sub (([⟨true, false, 0x12345, 0, 0⟩] :
               List ThunkSym).get ⟨0, by decide⟩).addr_no_opd 0x8000),
            0x7d8903a6, 0x4e800420, 0x60000000, 0x60000000, 0x60000000]) ∧
     (∀ v : Nat, (0x3d820000 ||| higha v) &&& 0xffff = higha v ∧
       (0xe98c0000 ||| lo v) &&& 0xffff = lo v ∧
       (0x398c0000 ||| lo v) &&& 0xffff = lo v)) :=
  ⟨by decide,
   c6_thunk_stub 0x8000 ([⟨true, false, 0x12345, 0, 0⟩] : List ThunkSym) 0 (by decide)⟩

/-- **C5** witness. -/
theorem c5_witness :
    1 < ([⟨100, 0⟩, ⟨200, 7⟩] : List OpdSym).length ∧
    ((([⟨100, 0⟩, ⟨200, 7⟩] : List OpdSym).foldl PPC64OpdSection.add_symbol
        ⟨[], 0⟩).sh_size = 24 * ([⟨100, 0⟩, ⟨200, 7⟩] : List OpdSym).length ∧
     ((([⟨100, 0⟩, ⟨200, 7⟩] : List OpdSym).foldl PPC64OpdSection.add_symbol
        ⟨[], 0⟩).copy_buf 5).length = 24 * ([⟨100, 0⟩, ⟨200, 7⟩] : List OpdSym).length ∧
     ((([⟨100, 0⟩, ⟨200, 7⟩] : List OpdSym).foldl PPC64OpdSection.add_symbol
        ⟨[], 0⟩).symbols.getD 1 ⟨0, 0⟩).opd_idx = 1 ∧
     (((([⟨100, 0⟩, ⟨200, 7⟩] : List OpdSym).foldl PPC64OpdSection.add_symbol
        ⟨[], 0⟩).copy_buf 5).drop (24 * 1)).take 24
       = be64 ((([⟨100, 0⟩, ⟨200, 7⟩] : List OpdSym).get
           ⟨1, by decide⟩).addrNoPltNoOpd) ++ be64 5 ++ be64 0) :=
  ⟨by decide, c5_opd_copy_buf ([⟨100, 0⟩, ⟨200, 7⟩] : List OpdSym) 5 1 (by decide)⟩

/-- **C3**: applying `R_PPC64_REL24` computes
`sym.get_addr(NO_OPD) + A - P` (as a wrapped `i64`); if the symbol has
a PLT entry or the value fails the 25-bit sign-extension idempotence
test, the value is recomputed as the thunk address plus `A` minus `P`;
a range error is reported iff the final value lies outside
`[-2^25, 2^25)`; bits `[25:2]` of the value are or-combined into the
instruction word; and the following word is rewritten from the NOP
`0x60000000` to `0xe8410028` exactly when the callee has a PLT. -/
theorem c3_apply_rel24 (sym : Rel24Sym) (A : Int) (P thunk_addr insn next_insn : Nat) :
    ((apply_rel24 sym A P thunk_addr insn next_insn).range_error = true ↔
      ¬(-(2 ^ 25) ≤
          (if sym.has_plt = true ∨
              sign_extend (toSigned64 (toU64 ((sym.addr_no_opd : Int) + A - (P : Int)))) 25
                ≠ toSigned64 (toU64 ((sym.addr_no_opd : Int) + A - (P : Int)))
           then toSigned64 (toU64 ((thunk_addr : Int) + A - (P : Int)))
           else toSigned64 (toU64 ((sym.addr_no_opd : Int) + A - (P : Int)))) ∧
        (if sym.has_plt = true ∨
            sign_extend (toSigned64 (toU64 ((sym.addr_no_opd : Int) + A - (P : Int)))) 25
              ≠ toSigned64 (toU64 ((sym.addr_no_opd : Int) + A - (P : Int)))
         then toSigned64 (toU64 ((thunk_addr : Int) + A - (P : Int)))
         else toSigned64 (toU64 ((sym.addr_no_opd : Int) + A - (P : Int)))) < 2 ^ 25)) ∧
    (apply_rel24 sym A P thunk_addr insn next_insn).insn
      = insn |||
        (bits (toU64
          (if sym.has_plt = true ∨
              sign_extend (toSigned64 (toU64 ((sym.addr_no_opd : Int) + A - (P : Int)))) 25
                ≠ toSigned64 (toU64 ((sym.addr_no_opd : Int) + A - (P : Int)))
           then toSigned64 (toU64 ((thunk_addr : Int) + A - (P : Int)))
           else toSigned64 (toU64 ((sym.addr_no_opd : Int) + A - (P : Int))))) 25 2 <<< 2) ∧
    (apply_rel24 sym A P thunk_addr insn next_insn).next_insn
      = (if sym.has_plt = true ∧ next_insn = 0x60000000 then 0xe8410028
         else next_insn) := by
  by_cases hp : sym.has_plt = true
  · by_cases hn : next_insn = 0x60000000 <;>
      refine ⟨?_, ?_, ?_⟩ <;> simp [apply_rel24, hp, hn] <;> omega
  · rw [Bool.not_eq_true] at hp
    by_cases hs : sign_extend (toSigned64 (toU64 ((sym.addr_no_opd : Int) + A - (P : Int)))) 25
        = toSigned64 (toU64 ((sym.addr_no_opd : Int) + A - (P : Int)))
    · refine ⟨?_, ?_, ?_⟩ <;> simp [apply_rel24, hp, hs] <;> omega
    · refine ⟨?_, ?_, ?_⟩ <;> simp [apply_rel24, hp, hs] <;> omega

/-- **C4**: during relocation scanning, for a relocation with a
resolved symbol: ifunc symbols get `NEEDS_GOT | NEEDS_PLT | NEEDS_OPD`;
a non-`REL24` relocation against a `FUNC`-typed symbol sets
`NEEDS_OPD`; `GOT_TPREL16_HA` sets `NEEDS_GOTTP`; `REL24` sets
`NEEDS_PLT` exactly when the symbol is imported; `PLT16_HA` sets
`NEEDS_GOT` (not `NEEDS_PLT`); `GOT_TLSGD16_HA` sets `NEEDS_TLSGD`;
`GOT_TLSLD16_HA` sets the process-wide `needs_tlsld`; every other
relocation type the scanner's switch lists sets no flags; a type
outside the switch (`ADDR32`, `REL32`, `DTPREL64`, or one the backend
never names) hits the fatal default branch. -/
theorem c4_scan_relocation (rt : RelType) (sym : ScanSym) (hne : rt ≠ .R_NONE) :
    (scan_relocation rt sym).flags.needs_got
      = (sym.is_ifunc || decide (rt = .R_PPC64_PLT16_HA)) ∧
    (scan_relocation rt sym).flags.needs_plt
      = (sym.is_ifunc || (decide (rt = .R_PPC64_REL24) && sym.is_imported)) ∧
    (scan_relocation rt sym).flags.needs_opd
      = (sym.is_ifunc ||
         (decide (rt ≠ .R_PPC64_REL24) && decide (sym.stt = .STT_FUNC))) ∧
    (scan_relocation rt sym).flags.needs_gottp
      = decide (rt = .R_PPC64_GOT_TPREL16_HA) ∧
    (scan_relocation rt sym).flags.needs_tlsgd
      = decide (rt = .R_PPC64_GOT_TLSGD16_HA) ∧
    (scan_relocation rt sym).needs_tlsld
      = decide (rt = .R_PPC64_GOT_TLSLD16_HA) ∧
    ((scan_relocation rt sym).fatal = true ↔
      rt = .R_PPC64_ADDR32 ∨ rt = .R_PPC64_REL32 ∨ rt = .R_PPC64_DTPREL64 ∨
        rt = .R_PPC64_UNKNOWN) := by
  revert hne sym rt
  decide

/-- **C4** witness. -/
theorem c4_witness :
    (RelType.R_PPC64_REL24 ≠ RelType.R_NONE) ∧
    ((scan_relocation .R_PPC64_REL24 ⟨false, .STT_FUNC, true⟩).flags.needs_got
       = ((⟨false, .STT_FUNC, true⟩ : ScanSym).is_ifunc ||
          decide (RelType.R_PPC64_REL24 = .R_PPC64_PLT16_HA)) ∧
     (scan_relocation .R_PPC64_REL24 ⟨false, .STT_FUNC, true⟩).flags.needs_plt
       = ((⟨false, .STT_FUNC, true⟩ : ScanSym).is_ifunc ||
          (decide (RelType.R_PPC64_REL24 = .R_PPC64_REL24) &&
           (⟨false, .STT_FUNC, true⟩ : ScanSym).is_imported)) ∧
     (scan_relocation .R_PPC64_REL24 ⟨false, .STT_FUNC, true⟩).flags.needs_opd
       = ((⟨false, .STT_FUNC, true⟩ : ScanSym).is_ifunc ||
          (decide (RelType.R_PPC64_REL24 ≠ .R_PPC64_REL24) &&
           decide ((⟨false, .STT_FUNC, true⟩ : ScanSym).stt = .STT_FUNC))) ∧
     (scan_relocation .R_PPC64_REL24 ⟨false, .STT_FUNC, true⟩).flags.needs_gottp
       = decide (RelType.R_PPC64_REL24 = .R_PPC64_GOT_TPREL16_HA) ∧
     (scan_relocation .R_PPC64_REL24 ⟨false, .STT_FUNC, true⟩).flags.needs_tlsgd
       = decide (RelType.R_PPC64_REL24 = .R_PPC64_GOT_TLSGD16_HA) ∧
     (scan_relocation .R_PPC64_REL24 ⟨false, .STT_FUNC, true⟩).needs_tlsld
       = decide (RelType.R_PPC64_REL24 = .R_PPC64_GOT_TLSLD16_HA) ∧
     ((scan_relocation .R_PPC64_REL24 ⟨false, .STT_FUNC, true⟩).fatal = true ↔
       RelType.R_PPC64_REL24 = .R_PPC64_ADDR32 ∨
         RelType.R_PPC64_REL24 = .R_PPC64_REL32 ∨
         RelType.R_PPC64_REL24 = .R_PPC64_DTPREL64 ∨
         RelType.R_PPC64_REL24 = .R_PPC64_UNKNOWN)) :=
  ⟨by decide, c4_scan_relocation .R_PPC64_REL24 ⟨false, .STT_FUNC, true⟩ (by decide)⟩

/-- **C10**: in `apply_reloc_nonalloc`, a relocation whose symbol is
unresolved (belongs to no file) records an undefined-reference error
and is otherwise skipped: the buffer is passed through unchanged and
the remaining relocations are processed. -/
theorem c10_nonalloc_undef (symtab : Nat → NonallocSym)
    (frag : ElfRel → Option (Nat × Nat))
    (tomb : NonallocSym → Option (Nat × Nat) → Option Nat) (dtp_addr : Nat)
    (pre post : List ElfRel) (r : ElfRel) (buf b1 : List Nat)
    (errs e1 : List LinkError)
    (hty : r.r_type ≠ .R_NONE)
    (hun : (symtab r.r_sym).resolved = false)
    (hpre : apply_reloc_nonalloc symtab frag tomb dtp_addr pre buf errs
      = .ok (b1, e1)) :
    apply_reloc_nonalloc symtab frag tomb dtp_addr (pre ++ r :: post) buf errs
      = apply_reloc_nonalloc symtab frag tomb dtp_addr post b1
          (e1 ++ [.undef r]) := by
  have hstep : nonalloc_step symtab frag tomb dtp_addr b1 e1 r
      = .ok (b1, e1 ++ [.undef r]) := by
    rw [nonalloc_step, if_neg hty]
    simp [hun]
  rw [apply_reloc_nonalloc, List.foldlM_append]
  rw [apply_reloc_nonalloc] at hpre
  rw [hpre]
  simp only [bind, Except.bind, List.foldlM_cons, hstep, apply_reloc_nonalloc]

/-- **C10** witness. -/
theorem c10_witness :
    ((⟨4, .R_PPC64_ADDR64, 0, 0⟩ : ElfRel).r_type ≠ RelType.R_NONE) ∧
    (((fun _ => (⟨false, 0⟩ : NonallocSym)) (⟨4, .R_PPC64_ADDR64, 0, 0⟩ : ElfRel).r_sym).resolved
      = false) ∧
    (apply_reloc_nonalloc (fun _ => (⟨false, 0⟩ : NonallocSym)) (fun _ => none)
        (fun _ _ => none) 0 [] [0, 0] [] = .ok ([0, 0], [])) ∧
    (apply_reloc_nonalloc (fun _ => (⟨false, 0⟩ : NonallocSym)) (fun _ => none)
        (fun _ _ => none) 0 ([] ++ (⟨4, .R_PPC64_ADDR64, 0, 0⟩ : ElfRel) :: []) [0, 0] []
      = apply_reloc_nonalloc (fun _ => (⟨false, 0⟩ : NonallocSym)) (fun _ => none)
          (fun _ _ => none) 0 [] [0, 0]
          ([] ++ [.undef (⟨4, .R_PPC64_ADDR64, 0, 0⟩ : ElfRel)])) :=
  ⟨by decide, rfl, rfl,
   c10_nonalloc_undef (fun _ => (⟨false, 0⟩ : NonallocSym)) (fun _ => none)
     (fun _ _ => none) 0 [] [] (⟨4, .R_PPC64_ADDR64, 0, 0⟩ : ElfRel) [0, 0] [0, 0]
     [] [] (by decide) rfl rfl⟩

/-- `specUpdate` never changes a symbol's type. -/
theorem specUpdate_stt (o : List Symbol) (i : Nat) (rels : List ElfRel)
    (s : Symbol) : (specUpdate o i rels s).stt = s.stt := by
  unfold specUpdate
  split
  · rfl
  · split
    · rfl
    · dsimp only
      split <;> rfl

/-- `specUpdate` never changes a symbol's index. -/
theorem specUpdate_sym_idx (o : List Symbol) (i : Nat) (rels : List ElfRel)
    (s : Symbol) : (specUpdate o i rels s).sym_idx = s.sym_idx := by
  unfold specUpdate
  split
  · rfl
  · split
    · rfl
    · dsimp only
      split <;> rfl

/-- `specUpdate` fixes the out-of-bounds default symbol. -/
theorem specUpdate_default (o : List Symbol) (i : Nat) (rels : List ElfRel) :
    specUpdate o i rels defaultSymbol = defaultSymbol := by
  unfold specUpdate
  rw [if_pos (by rw [filterCond]; rfl)]

/-- `specUpdate` fixes `SECTION`-typed symbols. -/
theorem specUpdate_section (o : List Symbol) (i : Nat) (rels : List ElfRel)
    (s : Symbol) (h : s.stt = .STT_SECTION) : specUpdate o i rels s = s := by
  unfold specUpdate
  rw [if_pos (by simp [filterCond, h])]

/-- `specUpdate` fixes symbols the rewrite loop's filter rejects. -/
theorem specUpdate_not_selected (o : List Symbol) (i : Nat) (rels : List ElfRel)
    (s : Symbol) (h : filterCond i s = false) : specUpdate o i rels s = s := by
  unfold specUpdate
  rw [if_pos h]

/-- Reading back an in-bounds `set`. -/
theorem getD_set_self {α : Type} (l : List α) (j : Nat) (v d : α)
    (h : j < l.length) : (l.set j v).getD j d = v := by
  rw [List.getD_eq_getElem _ _ (by simpa using h)]
  simp

/-- `set` does not change other positions. -/
theorem getD_set_ne {α : Type} (l : List α) (j j' : Nat) (v d : α)
    (hne : j' ≠ j) : (l.set j v).getD j' d = l.getD j' d := by
  by_cases h : j' < l.length
  · rw [List.getD_eq_getElem _ _ (by simpa using h),
      List.getD_eq_getElem _ _ h]
    exact List.getElem_set_ne (fun he => hne he.symm) _
  · rw [List.getD_eq_default _ _ (by simpa using Nat.le_of_not_lt h),
      List.getD_eq_default _ _ (Nat.le_of_not_lt h)]

/-- Unfolding of the rewrite loop's filter. -/
theorem filterCond_eq_true_iff (opdIdx : Nat) (s : Symbol) :
    filterCond opdIdx s = true ↔
      s.owned = true ∧ s.isec = some opdIdx ∧
        (s.stt = .STT_FUNC ∨ s.stt = .STT_GNU_IFUNC) := by
  simp [filterCond, and_assoc]

/-- Unfolding of the rewrite loop's filter, negative form. -/
theorem filterCond_eq_false_iff (opdIdx : Nat) (s : Symbol) :
    filterCond opdIdx s = false ↔
      s.owned = false ∨ s.isec ≠ some opdIdx ∨
        (s.stt ≠ .STT_FUNC ∧ s.stt ≠ .STT_GNU_IFUNC) := by
  rw [← Bool.not_eq_true, filterCond_eq_true_iff]
  rcases s.owned with _ | _ <;> simp <;> tauto

/-- `rewrite_opd_step` skips a symbol the filter rejects. -/
theorem rewrite_opd_step_skip (opdIdx : Nat) (opdRels : List ElfRel)
    (cur : List Symbol) (acc2 : List OpdSymbol) (j : Nat)
    (h : filterCond opdIdx (cur.getD j defaultSymbol) = false) :
    rewrite_opd_step opdIdx opdRels (cur, acc2) j = .ok (cur, acc2) := by
  simp only [rewrite_opd_step]
  by_cases h1 : (cur.getD j defaultSymbol).owned = false ∨
      (cur.getD j defaultSymbol).isec ≠ some opdIdx
  · rw [if_pos h1]
  · have h1' := h1
    push_neg at h1'
    have hc : (cur.getD j defaultSymbol).stt ≠ .STT_FUNC ∧
        (cur.getD j defaultSymbol).stt ≠ .STT_GNU_IFUNC := by
      rcases (filterCond_eq_false_iff _ _).mp h with h2 | h2 | h2
      · exact absurd h2 (by simpa using h1'.1)
      · exact absurd h1'.2 h2
      · exact h2
    rw [if_neg h1, if_pos hc]

/-- `rewrite_opd_step` on a selected symbol: look up the `.opd`
relocation and the section symbol, then either fail or update. -/
theorem rewrite_opd_step_selected (opdIdx : Nat) (opdRels : List ElfRel)
    (cur : List Symbol) (acc2 : List OpdSymbol) (j : Nat)
    (hf : filterCond opdIdx (cur.getD j defaultSymbol) = true) :
    rewrite_opd_step opdIdx opdRels (cur, acc2) j
      = match get_relocation_at opdRels (cur.getD j defaultSymbol).value with
        | none => .error "cannot find a relocation in .opd"
        | some rel =>
          if (cur.getD rel.r_sym defaultSymbol).stt ≠ .STT_SECTION then
            .error "bad relocation in .opd"
          else
            .ok (cur.set j
                  { cur.getD j defaultSymbol with
                      isec := (cur.getD rel.r_sym defaultSymbol).isec,
                      value := rel.r_addend },
                 acc2 ++ [⟨(cur.getD j defaultSymbol).value,
                   { cur.getD j defaultSymbol with
                       isec := (cur.getD rel.r_sym defaultSymbol).isec,
                       value := rel.r_addend }⟩]) := by
  obtain ⟨ho, hi, hty⟩ := (filterCond_eq_true_iff _ _).mp hf
  simp only [rewrite_opd_step]
  rw [if_neg (by push_neg; exact ⟨by rw [ho]; simp, hi⟩)]
  rw [if_neg (by rcases hty with h | h <;> rw [h] <;> simp)]

/-- The first rewrite loop, run over a duplicate-free index list whose
entries are still pristine, computes `specUpdate` at every processed
index (and only succeeds when every processed symbol satisfies
`specOk`), leaves other entries alone, and appends one `opd_syms`
record per selected symbol, in order. -/
theorem rewrite_opd_go_spec (opdIdx : Nat) (opdRels : List ElfRel)
    (origSyms : List Symbol) :
    ∀ (idxs : List Nat) (cur : List Symbol) (acc2 : List OpdSymbol)
      (res : List Symbol) (opdRes : List OpdSymbol),
      idxs.Nodup →
      (∀ j, (cur.getD j defaultSymbol).stt = (origSyms.getD j defaultSymbol).stt) →
      (∀ j, (origSyms.getD j defaultSymbol).stt = .STT_SECTION →
        cur.getD j defaultSymbol = origSyms.getD j defaultSymbol) →
      (∀ j, j ∈ idxs → cur.getD j defaultSymbol = origSyms.getD j defaultSymbol) →
      rewrite_opd_go opdIdx opdRels idxs (cur, acc2) = .ok (res, opdRes) →
      (∀ j, j ∈ idxs →
        specOk origSyms opdIdx opdRels (origSyms.getD j defaultSymbol) ∧
        res.getD j defaultSymbol
          = specUpdate origSyms opdIdx opdRels (origSyms.getD j defaultSymbol)) ∧
      (∀ j, j ∉ idxs → res.getD j defaultSymbol = cur.getD j defaultSymbol) ∧
      opdRes = acc2 ++
        (idxs.filter
          (fun j => filterCond opdIdx (origSyms.getD j defaultSymbol))).map
          (fun j => ⟨(origSyms.getD j defaultSymbol).value,
            specUpdate origSyms opdIdx opdRels (origSyms.getD j defaultSymbol)⟩) := by
  intro idxs
  induction idxs with
  | nil =>
    intro cur acc2 res opdRes _ _ _ _ hok
    simp only [rewrite_opd_go, Except.ok.injEq, Prod.mk.injEq] at hok
    obtain ⟨hc, ha⟩ := hok
    subst hc; subst ha
    refine ⟨fun j hj => absurd hj (List.not_mem_nil j), fun j _ => rfl, by simp⟩
  | cons a t ih =>
    intro cur acc2 res opdRes hnd h2 h3 h4 hok
    have hnd' := List.nodup_cons.mp hnd
    simp only [rewrite_opd_go] at hok
    have horig := h4 a (List.mem_cons_self a t)
    by_cases hf : filterCond opdIdx (cur.getD a defaultSymbol) = false
    · rw [rewrite_opd_step_skip _ _ _ _ _ hf] at hok
      have hok' : rewrite_opd_go opdIdx opdRels t (cur, acc2) = .ok (res, opdRes) :=
        hok
      have hf' : filterCond opdIdx (origSyms.getD a defaultSymbol) = false := by
        rw [← horig]; exact hf
      obtain ⟨ha', hb', hc'⟩ := ih cur acc2 res opdRes hnd'.2 h2 h3
        (fun j hj => h4 j (List.mem_cons_of_mem _ hj)) hok'
      refine ⟨?_, ?_, ?_⟩
      · intro j hj
        rcases List.mem_cons.mp hj with rfl | hj
        · refine ⟨fun hft => absurd hft (by rw [hf']; simp), ?_⟩
          rw [hb' j hnd'.1, horig, specUpdate_not_selected _ _ _ _ hf']
        · exact ha' j hj
      · intro j hj
        exact hb' j (fun hin => hj (List.mem_cons_of_mem _ hin))
      · rw [hc', List.filter_cons_of_neg (by rw [hf']; simp)]
    · have hft : filterCond opdIdx (cur.getD a defaultSymbol) = true := by
        revert hf; cases filterCond opdIdx (cur.getD a defaultSymbol) <;> simp
      have hft' : filterCond opdIdx (origSyms.getD a defaultSymbol) = true := by
        rw [← horig]; exact hft
      have halen : a < cur.length := by
        by_contra hlen
        rw [List.getD_eq_default _ _ (Nat.le_of_not_lt hlen)] at hft
        simp [filterCond, defaultSymbol] at hft
      rw [rewrite_opd_step_selected _ _ _ _ _ hft] at hok
      cases hrel : get_relocation_at opdRels (cur.getD a defaultSymbol).value with
      | none =>
        rw [hrel] at hok
        exact Except.noConfusion hok
      | some rel =>
        rw [hrel] at hok
        have hok2 : (match
            (if (cur.getD rel.r_sym defaultSymbol).stt ≠ SymType.STT_SECTION then
              (Except.error "bad relocation in .opd" :
                Except String (List Symbol × List OpdSymbol))
            else
              Except.ok (cur.set a
                  { cur.getD a defaultSymbol with
                      isec := (cur.getD rel.r_sym defaultSymbol).isec,
                      value := rel.r_addend },
                acc2 ++ [⟨(cur.getD a defaultSymbol).value,
                  { cur.getD a defaultSymbol with
                      isec := (cur.getD rel.r_sym defaultSymbol).isec,
                      value := rel.r_addend }⟩])) with
          | Except.error e => Except.error e
          | Except.ok acc' => rewrite_opd_go opdIdx opdRels t acc')
            = Except.ok (res, opdRes) := hok
        have hrel' : get_relocation_at opdRels
            (origSyms.getD a defaultSymbol).value = some rel := by
          rw [← horig]; exact hrel
        by_cases hsec : (cur.getD rel.r_sym defaultSymbol).stt ≠ .STT_SECTION
        · rw [if_pos hsec] at hok2
          exact Except.noConfusion hok2
        · push_neg at hsec
          rw [if_neg (not_not.mpr hsec)] at hok2
          have hsec_orig : (origSyms.getD rel.r_sym defaultSymbol).stt
              = .STT_SECTION := by rw [← h2 rel.r_sym]; exact hsec
          have hsym2 : cur.getD rel.r_sym defaultSymbol
              = origSyms.getD rel.r_sym defaultSymbol := h3 rel.r_sym hsec_orig
          have hspec : { cur.getD a defaultSymbol with
                isec := (cur.getD rel.r_sym defaultSymbol).isec,
                value := rel.r_addend }
              = specUpdate origSyms opdIdx opdRels
                  (origSyms.getD a defaultSymbol) := by
            rw [horig, hsym2, specUpdate,
              if_neg (by rw [hft']; simp), hrel']
            have hso : ((origSyms[rel.r_sym]?).getD defaultSymbol).stt
                = SymType.STT_SECTION := by
              rw [← List.getD_eq_getElem?_getD]
              exact hsec_orig
            simp [hso]
          have hok' : rewrite_opd_go opdIdx opdRels t
              (cur.set a
                { cur.getD a defaultSymbol with
                    isec := (cur.getD rel.r_sym defaultSymbol).isec,
                    value := rel.r_addend },
               acc2 ++ [⟨(cur.getD a defaultSymbol).value,
                 { cur.getD a defaultSymbol with
                     isec := (cur.getD rel.r_sym defaultSymbol).isec,
                     value := rel.r_addend }⟩]) = .ok (res, opdRes) := hok2
          have h2new : ∀ j,
              ((cur.set a
                { cur.getD a defaultSymbol with
                    isec := (cur.getD rel.r_sym defaultSymbol).isec,
                    value := rel.r_addend }).getD j defaultSymbol).stt
              = (origSyms.getD j defaultSymbol).stt := by
            intro j
            by_cases hj : j = a
            · subst hj
              rw [getD_set_self _ _ _ _ halen]
              exact h2 j
            · rw [getD_set_ne _ _ _ _ _ hj]
              exact h2 j
          have h3new : ∀ j, (origSyms.getD j defaultSymbol).stt = .STT_SECTION →
              (cur.set a
                { cur.getD a defaultSymbol with
                    isec := (cur.getD rel.r_sym defaultSymbol).isec,
                    value := rel.r_addend }).getD j defaultSymbol
              = origSyms.getD j defaultSymbol := by
            intro j hjsec
            by_cases hj : j = a
            · subst hj
              obtain ⟨-, -, hty⟩ := (filterCond_eq_true_iff _ _).mp hft'
              rcases hty with h | h <;> rw [h] at hjsec <;> exact absurd hjsec (by decide)
            · rw [getD_set_ne _ _ _ _ _ hj]
              exact h3 j hjsec
          have h4new : ∀ j, j ∈ t →
              (cur.set a
                { cur.getD a defaultSymbol with
                    isec := (cur.getD rel.r_sym defaultSymbol).isec,
                    value := rel.r_addend }).getD j defaultSymbol
              = origSyms.getD j defaultSymbol := by
            intro j hj
            have hja : j ≠ a := fun he => hnd'.1 (he ▸ hj)
            rw [getD_set_ne _ _ _ _ _ hja]
            exact h4 j (List.mem_cons_of_mem _ hj)
          obtain ⟨ha', hb', hc'⟩ := ih _ _ res opdRes hnd'.2 h2new h3new h4new hok'
          refine ⟨?_, ?_, ?_⟩
          · intro j hj
            rcases List.mem_cons.mp hj with rfl | hj
            · refine ⟨fun _ => ⟨rel, hrel', hsec_orig⟩, ?_⟩
              rw [hb' j hnd'.1, getD_set_self _ _ _ _ halen, hspec]
            · exact ha' j hj
          · intro j hj
            have hja : j ≠ a := fun he => hj (he ▸ List.mem_cons_self a t)
            rw [hb' j (fun hin => hj (List.mem_cons_of_mem _ hin)),
              getD_set_ne _ _ _ _ _ hja]
          · rw [hc', List.filter_cons_of_pos (by rw [hft'])]
            rw [List.map_cons, List.append_assoc, List.singleton_append,
              hspec, horig]

/-- Decompose a successful run of `ppc64v1_rewrite_opd_file` into its
phase-1 and phase-2 results. -/
theorem rewrite_opd_file_ok_parts (file : ObjectFile) (opdIdx : Nat)
    (opd : InputSection) (file' : ObjectFile)
    (hopd : get_opd_section file = some opdIdx)
    (hsec : file.sections.getD opdIdx none = some opd)
    (hok : ppc64v1_rewrite_opd_file file = .ok file') :
    ∃ syms1 opd_syms0 sections2,
      rewrite_opd_go opdIdx opd.rels (List.range file.symbols.length)
        (file.symbols, []) = .ok (syms1, opd_syms0) ∧
      rewrite_opd_sections syms1 opdIdx
        (opd_syms0.mergeSort (fun a b => a.r_offset ≤ b.r_offset)) 0
        (file.sections.set opdIdx (some { opd with is_alive := false }))
        = .ok sections2 ∧
      file' = { symbols := syms1, sections := sections2 } := by
  rw [ppc64v1_rewrite_opd_file, hopd] at hok
  have hok1 : (match file.sections.getD opdIdx none with
      | none => (Except.ok file : Except String ObjectFile)
      | some opd =>
        match rewrite_opd_go opdIdx opd.rels (List.range file.symbols.length)
            (file.symbols, []) with
        | .error e => .error e
        | .ok (syms1, opd_syms0) =>
          match rewrite_opd_sections syms1 opdIdx
              (opd_syms0.mergeSort (fun a b => a.r_offset ≤ b.r_offset)) 0
              (file.sections.set opdIdx (some { opd with is_alive := false })) with
          | .error e => .error e
          | .ok sections2 => .ok { symbols := syms1, sections := sections2 })
      = Except.ok file' := hok
  rw [hsec] at hok1
  have hok2 : (match rewrite_opd_go opdIdx opd.rels
        (List.range file.symbols.length) (file.symbols, []) with
      | .error e => (.error e : Except String ObjectFile)
      | .ok (syms1, opd_syms0) =>
        match rewrite_opd_sections syms1 opdIdx
            (opd_syms0.mergeSort (fun a b => a.r_offset ≤ b.r_offset)) 0
            (file.sections.set opdIdx (some { opd with is_alive := false })) with
        | .error e => .error e
        | .ok sections2 => .ok { symbols := syms1, sections := sections2 })
      = Except.ok file' := hok1
  rcases hgo : rewrite_opd_go opdIdx opd.rels (List.range file.symbols.length)
      (file.symbols, []) with e | p
  · rw [hgo] at hok2
    exact Except.noConfusion hok2
  · obtain ⟨syms1, opd_syms0⟩ := p
    rw [hgo] at hok2
    have hok3 : (match rewrite_opd_sections syms1 opdIdx
          (opd_syms0.mergeSort (fun a b => a.r_offset ≤ b.r_offset)) 0
          (file.sections.set opdIdx (some { opd with is_alive := false })) with
        | .error e => (.error e : Except String ObjectFile)
        | .ok sections2 => .ok { symbols := syms1, sections := sections2 })
        = Except.ok file' := hok2
    rcases hsecs : rewrite_opd_sections syms1 opdIdx
        (opd_syms0.mergeSort (fun a b => a.r_offset ≤ b.r_offset)) 0
        (file.sections.set opdIdx (some { opd with is_alive := false }))
        with e | sections2
    · rw [hsecs] at hok3
      exact Except.noConfusion hok3
    · rw [hsecs] at hok3
      have hok4 : (Except.ok { symbols := syms1, sections := sections2 } :
          Except String ObjectFile) = .ok file' := hok3
      refine ⟨syms1, opd_syms0, sections2, rfl, hsecs, ?_⟩
      cases hok4
      rfl

/-- **C1**: for a file with an `.opd` section, every owned symbol
living in `.opd` with type `FUNC` or `GNU_IFUNC` is redirected by the
OPD rewrite to the section of the `SECTION`-typed symbol named by the
`.opd` relocation at offset `sym.value`, with `sym.value` set to that
relocation's addend; if no relocation exists at that offset, or its
symbol is not `SECTION`-typed, the pass fails with a fatal error. -/
theorem c1_opd_rewrite_function_syms (file : ObjectFile) (opdIdx : Nat)
    (opd : InputSection)
    (hopd : get_opd_section file = some opdIdx)
    (hsec : file.sections.getD opdIdx none = some opd)
    (j : Nat)
    (hown : (file.symbols.getD j defaultSymbol).owned = true)
    (hin : (file.symbols.getD j defaultSymbol).isec = some opdIdx)
    (hty : (file.symbols.getD j defaultSymbol).stt = .STT_FUNC ∨
           (file.symbols.getD j defaultSymbol).stt = .STT_GNU_IFUNC) :
    (∀ file', ppc64v1_rewrite_opd_file file = .ok file' →
      ∃ rel, get_relocation_at opd.rels
          (file.symbols.getD j defaultSymbol).value = some rel ∧
        (file.symbols.getD rel.r_sym defaultSymbol).stt = .STT_SECTION ∧
        file'.symbols.getD j defaultSymbol
          = { file.symbols.getD j defaultSymbol with
                isec := (file.symbols.getD rel.r_sym defaultSymbol).isec,
                value := rel.r_addend }) ∧
    ((get_relocation_at opd.rels
        (file.symbols.getD j defaultSymbol).value = none ∨
      (∀ rel, get_relocation_at opd.rels
          (file.symbols.getD j defaultSymbol).value = some rel →
        (file.symbols.getD rel.r_sym defaultSymbol).stt ≠ .STT_SECTION)) →
      ∃ e, ppc64v1_rewrite_opd_file file = .error e) := by
  have hf : filterCond opdIdx (file.symbols.getD j defaultSymbol) = true :=
    (filterCond_eq_true_iff _ _).mpr ⟨hown, hin, hty⟩
  have hjlen : j < file.symbols.length := by
    by_contra hl
    rw [List.getD_eq_default _ _ (Nat.le_of_not_lt hl)] at hown
    exact absurd hown (by decide)
  have hsucc : ∀ file', ppc64v1_rewrite_opd_file file = .ok file' →
      ∃ rel, get_relocation_at opd.rels
          (file.symbols.getD j defaultSymbol).value = some rel ∧
        (file.symbols.getD rel.r_sym defaultSymbol).stt = .STT_SECTION ∧
        file'.symbols.getD j defaultSymbol
          = { file.symbols.getD j defaultSymbol with
                isec := (file.symbols.getD rel.r_sym defaultSymbol).isec,
                value := rel.r_addend } := by
    intro file' hok
    obtain ⟨syms1, opd_syms0, sections2, hgo, hsecs, hfile⟩ :=
      rewrite_opd_file_ok_parts file opdIdx opd file' hopd hsec hok
    obtain ⟨ha', hb', hc'⟩ := rewrite_opd_go_spec opdIdx opd.rels file.symbols
      (List.range file.symbols.length) file.symbols [] syms1 opd_syms0
      (List.nodup_range _) (fun _ => rfl) (fun _ _ => rfl) (fun _ _ => rfl) hgo
    obtain ⟨hspecok, hres⟩ := ha' j (List.mem_range.mpr hjlen)
    obtain ⟨rel, hrel, hsect⟩ := hspecok hf
    refine ⟨rel, hrel, hsect, ?_⟩
    rw [hfile]
    show syms1.getD j defaultSymbol = _
    rw [hres, specUpdate, if_neg (by rw [hf]; simp), hrel]
    have hsect' : ((file.symbols[rel.r_sym]?).getD defaultSymbol).stt
        = SymType.STT_SECTION := by
      rw [← List.getD_eq_getElem?_getD]
      exact hsect
    simp [hsect']
  refine ⟨hsucc, ?_⟩
  intro hbad
  rcases hfin : ppc64v1_rewrite_opd_file file with e | file'
  · exact ⟨e, rfl⟩
  · exfalso
    obtain ⟨rel, hrel, hsect, -⟩ := hsucc file' hfin
    rcases hbad with hnone | hall
    · rw [hrel] at hnone
      exact Option.noConfusion hnone
    · exact hall rel hrel hsect

/-- A successful `rewrite_opd_rels` run maps each relocation through
`rewrite_opd_rel`, preserving count and order. -/
theorem rewrite_opd_rels_spec (syms : List Symbol) (opdIdx : Nat)
    (opds : List OpdSymbol) :
    ∀ (rels out : List ElfRel),
      rewrite_opd_rels syms opdIdx opds rels = .ok out →
      out.length = rels.length ∧
      ∀ m (hm : m < rels.length),
        rewrite_opd_rel syms opdIdx opds (rels.get ⟨m, hm⟩)
          = .ok (out.getD m ⟨0, .R_NONE, 0, 0⟩) := by
  intro rels
  induction rels with
  | nil =>
    intro out hok
    simp only [rewrite_opd_rels, Except.ok.injEq] at hok
    subst hok
    exact ⟨rfl, fun m hm => absurd hm (by simp)⟩
  | cons r rest ih =>
    intro out hok
    simp only [rewrite_opd_rels] at hok
    rcases hr : rewrite_opd_rel syms opdIdx opds r with e | r'
    · rw [hr] at hok
      exact Except.noConfusion hok
    · rw [hr] at hok
      rcases hrest : rewrite_opd_rels syms opdIdx opds rest with e | rest'
      · rw [hrest] at hok
        exact Except.noConfusion hok
      · rw [hrest] at hok
        have hok2 : (Except.ok (r' :: rest') : Except String (List ElfRel))
            = .ok out := hok
        cases hok2
        obtain ⟨hlen, hms⟩ := ih rest' hrest
        refine ⟨by simp [hlen], ?_⟩
        intro m hm
        cases m with
        | zero => exact hr
        | succ k =>
          have hk : k < rest.length := by
            simp only [List.length_cons] at hm
            omega
          exact hms k hk

/-- A successful `rewrite_opd_sections` run maps each section through
`rewrite_opd_isec` at its index, preserving count and order. -/
theorem rewrite_opd_sections_spec (syms : List Symbol) (opdIdx : Nat)
    (opds : List OpdSymbol) :
    ∀ (l : List (Option InputSection)) (k0 : Nat)
      (out : List (Option InputSection)),
      rewrite_opd_sections syms opdIdx opds k0 l = .ok out →
      out.length = l.length ∧
      ∀ k (hk : k < l.length),
        rewrite_opd_isec syms opdIdx opds (k0 + k) (l.get ⟨k, hk⟩)
          = .ok (out.getD k none) := by
  intro l
  induction l with
  | nil =>
    intro k0 out hok
    simp only [rewrite_opd_sections, Except.ok.injEq] at hok
    subst hok
    exact ⟨rfl, fun k hk => absurd hk (by simp)⟩
  | cons osec rest ih =>
    intro k0 out hok
    simp only [rewrite_opd_sections] at hok
    rcases hsec1 : rewrite_opd_isec syms opdIdx opds k0 osec with e | osec'
    · rw [hsec1] at hok
      exact Except.noConfusion hok
    · rw [hsec1] at hok
      rcases hrest : rewrite_opd_sections syms opdIdx opds (k0 + 1) rest
          with e | rest'
      · rw [hrest] at hok
        exact Except.noConfusion hok
      · rw [hrest] at hok
        have hok2 : (Except.ok (osec' :: rest') :
            Except String (List (Option InputSection))) = .ok out := hok
        cases hok2
        obtain ⟨hlen, hks⟩ := ih (k0 + 1) rest' hrest
        refine ⟨by simp [hlen], ?_⟩
        intro k hk
        cases k with
        | zero => simpa using hsec1
        | succ kk =>
          have hkk : kk < rest.length := by
            simp only [List.length_cons] at hk
            omega
          have h := hks kk hkk
          have harith : k0 + (kk + 1) = k0 + 1 + kk := by omega
          rw [harith]
          exact h

/-- A hit in `get_opd_sym_at` comes from a list entry with exactly the
requested offset. -/
theorem get_opd_sym_at_some (l : List OpdSymbol) (off : Nat) (s : Symbol)
    (h : get_opd_sym_at l off = some s) :
    ∃ e ∈ l, e.r_offset = off ∧ e.sym = s := by
  rw [get_opd_sym_at] at h
  rcases hf : l.find? (fun e => decide (off ≤ e.r_offset)) with _ | e
  · rw [hf] at h
    exact Option.noConfusion h
  · rw [hf] at h
    have h2 : (if e.r_offset = off then some e.sym else none) = some s := h
    by_cases he : e.r_offset = off
    · rw [if_pos he] at h2
      cases h2
      exact ⟨e, List.mem_of_find?_eq_some hf, he, rfl⟩
    · rw [if_neg he] at h2
      exact Option.noConfusion h2

/-- Phase-2 effect of a successful OPD rewrite: the `.opd` section is
dead, and every relocation of a live section whose (post-phase-1)
symbol still lives in `.opd` is retargeted to the function symbol
recorded at its addend, with the addend zeroed; relocations whose
symbols left `.opd` are unchanged. -/
theorem rewrite_opd_relocs_ok (file : ObjectFile) (opdIdx : Nat)
    (opd : InputSection)
    (hopd : get_opd_section file = some opdIdx)
    (hsec : file.sections.getD opdIdx none = some opd)
    (file' : ObjectFile) (hok : ppc64v1_rewrite_opd_file file = .ok file') :
    file'.sections.getD opdIdx none = some { opd with is_alive := false } ∧
    ∀ k isec, k ≠ opdIdx → file.sections.getD k none = some isec →
      isec.is_alive = true →
      ∃ isec', file'.sections.getD k none = some isec' ∧
        isec'.name = isec.name ∧ isec'.is_alive = true ∧
        isec'.rels.length = isec.rels.length ∧
        ∀ m (hm : m < isec.rels.length),
          (if (specUpdate file.symbols opdIdx opd.rels
                (file.symbols.getD (isec.rels.get ⟨m, hm⟩).r_sym
                  defaultSymbol)).isec = some opdIdx
           then ∃ jj, jj < file.symbols.length ∧
             filterCond opdIdx (file.symbols.getD jj defaultSymbol) = true ∧
             (file.symbols.getD jj defaultSymbol).value
               = (isec.rels.get ⟨m, hm⟩).r_addend ∧
             isec'.rels.getD m ⟨0, .R_NONE, 0, 0⟩
               = { isec.rels.get ⟨m, hm⟩ with
                     r_sym := (file.symbols.getD jj defaultSymbol).sym_idx,
                     r_addend := 0 }
           else isec'.rels.getD m ⟨0, .R_NONE, 0, 0⟩
             = isec.rels.get ⟨m, hm⟩) := by
  obtain ⟨syms1, opd_syms0, sections2, hgo, hsecs, hfile⟩ :=
    rewrite_opd_file_ok_parts file opdIdx opd file' hopd hsec hok
  obtain ⟨ha', hb', hc'⟩ := rewrite_opd_go_spec opdIdx opd.rels file.symbols
    (List.range file.symbols.length) file.symbols [] syms1 opd_syms0
    (List.nodup_range _) (fun _ => rfl) (fun _ _ => rfl) (fun _ _ => rfl) hgo
  have hsyms1 : ∀ jj, syms1.getD jj defaultSymbol
      = specUpdate file.symbols opdIdx opd.rels
          (file.symbols.getD jj defaultSymbol) := by
    intro jj
    by_cases hjj : jj < file.symbols.length
    · exact (ha' jj (List.mem_range.mpr hjj)).2
    · have hd : file.symbols.getD jj defaultSymbol = defaultSymbol :=
        List.getD_eq_default _ _ (Nat.le_of_not_lt hjj)
      rw [hb' jj (by simp [List.mem_range]; omega), hd, specUpdate_default]
  have hoplen : opdIdx < file.sections.length := by
    by_contra hl
    rw [List.getD_eq_default _ _ (Nat.le_of_not_lt hl)] at hsec
    exact Option.noConfusion hsec
  obtain ⟨hslen, hsk⟩ := rewrite_opd_sections_spec syms1 opdIdx
    (opd_syms0.mergeSort (fun a b => a.r_offset ≤ b.r_offset))
    (file.sections.set opdIdx (some { opd with is_alive := false })) 0
    sections2 hsecs
  constructor
  · have hk1 : opdIdx <
        (file.sections.set opdIdx
          (some { opd with is_alive := false })).length := by
      simpa using hoplen
    have h := hsk opdIdx hk1
    have hget : (file.sections.set opdIdx
        (some { opd with is_alive := false })).get ⟨opdIdx, hk1⟩
        = some { opd with is_alive := false } := by
      rw [List.get_eq_getElem]
      rw [List.getElem_set_self]
    rw [hget] at h
    have h2 : (if ({ opd with is_alive := false } : InputSection).is_alive
          = false ∨ (0 + opdIdx) = opdIdx then
        (Except.ok (some ({ opd with is_alive := false } : InputSection)) :
          Except String (Option InputSection))
      else
        match rewrite_opd_rels syms1 opdIdx
            (opd_syms0.mergeSort (fun a b => a.r_offset ≤ b.r_offset))
            ({ opd with is_alive := false } : InputSection).rels with
        | .error e => .error e
        | .ok rels' =>
          .ok (some { ({ opd with is_alive := false } : InputSection) with
            rels := rels' })) = .ok (sections2.getD opdIdx none) := h
    rw [if_pos (Or.inl rfl)] at h2
    have h3 : some ({ opd with is_alive := false } : InputSection)
        = sections2.getD opdIdx none := by
      injection h2
    rw [hfile]
    exact h3.symm
  · intro k isec hkne hgetk halive
    have hklen : k < file.sections.length := by
      by_contra hl
      rw [List.getD_eq_default _ _ (Nat.le_of_not_lt hl)] at hgetk
      exact Option.noConfusion hgetk
    have hk1 : k < (file.sections.set opdIdx
        (some { opd with is_alive := false })).length := by
      simpa using hklen
    have h := hsk k hk1
    have hget : (file.sections.set opdIdx
        (some { opd with is_alive := false })).get ⟨k, hk1⟩ = some isec := by
      rw [List.get_eq_getElem]
      rw [List.getElem_set_ne (fun he => hkne he.symm) _]
      rw [← List.getD_eq_getElem _ _ hklen]
      exact hgetk
    rw [hget] at h
    have h2 : (if isec.is_alive = false ∨ (0 + k) = opdIdx then
        (Except.ok (some isec) : Except String (Option InputSection))
      else
        match rewrite_opd_rels syms1 opdIdx
            (opd_syms0.mergeSort (fun a b => a.r_offset ≤ b.r_offset))
            isec.rels with
        | .error e => .error e
        | .ok rels' => .ok (some { isec with rels := rels' }))
        = .ok (sections2.getD k none) := h
    rw [if_neg (by
      push_neg
      exact ⟨by rw [halive]; simp, by simpa using hkne⟩)] at h2
    rcases hrr : rewrite_opd_rels syms1 opdIdx
        (opd_syms0.mergeSort (fun a b => a.r_offset ≤ b.r_offset))
        isec.rels with e | rels'
    · rw [hrr] at h2
      exact Except.noConfusion h2
    · rw [hrr] at h2
      have h3 : some ({ isec with rels := rels' } : InputSection)
          = sections2.getD k none := by
        injection h2
      obtain ⟨hrlen, hrm⟩ := rewrite_opd_rels_spec syms1 opdIdx
        (opd_syms0.mergeSort (fun a b => a.r_offset ≤ b.r_offset))
        isec.rels rels' hrr
      refine ⟨{ isec with rels := rels' }, ?_, rfl, halive, hrlen, ?_⟩
      · rw [hfile]
        exact h3.symm
      · intro m hm
        have hrmm := hrm m hm
        simp only [rewrite_opd_rel] at hrmm
        rw [hsyms1] at hrmm
        by_cases hcnd : (specUpdate file.symbols opdIdx opd.rels
            (file.symbols.getD (isec.rels.get ⟨m, hm⟩).r_sym
              defaultSymbol)).isec = some opdIdx
        · rw [if_pos hcnd]
          rw [if_neg (not_not_intro hcnd)] at hrmm
          rcases hsat : get_opd_sym_at
              (opd_syms0.mergeSort (fun a b => a.r_offset ≤ b.r_offset))
              (isec.rels.get ⟨m, hm⟩).r_addend with _ | s
          · rw [hsat] at hrmm
            exact Except.noConfusion hrmm
          · rw [hsat] at hrmm
            have hrm2 : (Except.ok { isec.rels.get ⟨m, hm⟩ with
                  r_sym := s.sym_idx, r_addend := 0 } : Except String ElfRel)
                = .ok (rels'.getD m ⟨0, .R_NONE, 0, 0⟩) := hrmm
            have hreq : ({ isec.rels.get ⟨m, hm⟩ with
                  r_sym := s.sym_idx, r_addend := 0 } : ElfRel)
                = rels'.getD m ⟨0, .R_NONE, 0, 0⟩ := by
              injection hrm2
            obtain ⟨e, hmem, hoff, hsym⟩ := get_opd_sym_at_some _ _ _ hsat
            have hmem0 : e ∈ opd_syms0 :=
              ((List.mergeSort_perm opd_syms0 _).mem_iff).mp hmem
            rw [hc'] at hmem0
            simp only [List.nil_append, List.mem_map, List.mem_filter,
              List.mem_range] at hmem0
            obtain ⟨jj, ⟨hjn, hpjj⟩, hejj⟩ := hmem0
            refine ⟨jj, hjn, hpjj, ?_, ?_⟩
            · rw [← hejj] at hoff
              exact hoff
            · have hs2 : s = specUpdate file.symbols opdIdx opd.rels
                  (file.symbols.getD jj defaultSymbol) := by
                rw [← hsym, ← hejj]
              rw [← hreq, hs2, specUpdate_sym_idx]
        · rw [if_neg hcnd]
          rw [if_pos hcnd] at hrmm
          have hrm2 : (Except.ok (isec.rels.get ⟨m, hm⟩) :
              Except String ElfRel) = .ok (rels'.getD m ⟨0, .R_NONE, 0, 0⟩) :=
            hrmm
          have : isec.rels.get ⟨m, hm⟩ = rels'.getD m ⟨0, .R_NONE, 0, 0⟩ := by
            injection hrm2
          exact this.symm

/-- **C2**: after the OPD rewrite, the `.opd` input section is marked
not alive, and in every other live input section, every relocation
whose (post-rewrite) symbol's input section is `.opd` has its symbol
index replaced by the index of the rewritten function symbol whose
original `.opd` offset equals the relocation's addend, and its addend
set to zero; it is a fatal error if no function symbol exists at that
offset. -/
theorem c2_opd_rewrite_relocations (file : ObjectFile) (opdIdx : Nat)
    (opd : InputSection)
    (hopd : get_opd_section file = some opdIdx)
    (hsec : file.sections.getD opdIdx none = some opd) :
    (∀ file', ppc64v1_rewrite_opd_file file = .ok file' →
      file'.sections.getD opdIdx none = some { opd with is_alive := false } ∧
      ∀ k isec, k ≠ opdIdx → file.sections.getD k none = some isec →
        isec.is_alive = true →
        ∃ isec', file'.sections.getD k none = some isec' ∧
          isec'.name = isec.name ∧ isec'.is_alive = true ∧
          isec'.rels.length = isec.rels.length ∧
          ∀ m (hm : m < isec.rels.length),
            (if (specUpdate file.symbols opdIdx opd.rels
                  (file.symbols.getD (isec.rels.get ⟨m, hm⟩).r_sym
                    defaultSymbol)).isec = some opdIdx
             then ∃ jj, jj < file.symbols.length ∧
               filterCond opdIdx (file.symbols.getD jj defaultSymbol) = true ∧
               (file.symbols.getD jj defaultSymbol).value
                 = (isec.rels.get ⟨m, hm⟩).r_addend ∧
               isec'.rels.getD m ⟨0, .R_NONE, 0, 0⟩
                 = { isec.rels.get ⟨m, hm⟩ with
                       r_sym := (file.symbols.getD jj defaultSymbol).sym_idx,
                       r_addend := 0 }
             else isec'.rels.getD m ⟨0, .R_NONE, 0, 0⟩
               = isec.rels.get ⟨m, hm⟩)) ∧
    ((∃ k isec, k ≠ opdIdx ∧ file.sections.getD k none = some isec ∧
        isec.is_alive = true ∧
        ∃ m, ∃ hm : m < isec.rels.length,
          (specUpdate file.symbols opdIdx opd.rels
            (file.symbols.getD (isec.rels.get ⟨m, hm⟩).r_sym
              defaultSymbol)).isec = some opdIdx ∧
          ¬∃ jj, jj < file.symbols.length ∧
            filterCond opdIdx (file.symbols.getD jj defaultSymbol) = true ∧
            (file.symbols.getD jj defaultSymbol).value
              = (isec.rels.get ⟨m, hm⟩).r_addend) →
      ∃ e, ppc64v1_rewrite_opd_file file = .error e) := by
  refine ⟨fun file' hok => rewrite_opd_relocs_ok file opdIdx opd hopd hsec
    file' hok, ?_⟩
  intro hbad
  rcases hfin : ppc64v1_rewrite_opd_file file with e | file'
  · exact ⟨e, rfl⟩
  · exfalso
    obtain ⟨k, isec, hkne, hgetk, halive, m, hm, hcnd, hnojj⟩ := hbad
    obtain ⟨-, hsections⟩ :=
      rewrite_opd_relocs_ok file opdIdx opd hopd hsec file' hfin
    obtain ⟨isec', -, -, -, -, hrels⟩ := hsections k isec hkne hgetk halive
    have h := hrels m hm
    rw [if_pos hcnd] at h
    obtain ⟨jj, hjn, hpjj, hval, -⟩ := h
    exact hnojj ⟨jj, hjn, hpjj, hval⟩

/-- **C1** witness. -/
theorem c1_witness :
    get_opd_section ({ symbols := [⟨true, some 0, 0, .STT_FUNC, 0⟩, ⟨true, some 1, 0, .STT_SECTION, 1⟩], sections := [some ⟨".opd", true, [⟨0, .R_PPC64_ADDR64, 1, 0x20⟩]⟩, some ⟨".text", true, []⟩] } : ObjectFile) = some 0 ∧
    ({ symbols := [⟨true, some 0, 0, .STT_FUNC, 0⟩, ⟨true, some 1, 0, .STT_SECTION, 1⟩], sections := [some ⟨".opd", true, [⟨0, .R_PPC64_ADDR64, 1, 0x20⟩]⟩, some ⟨".text", true, []⟩] } : ObjectFile).sections.getD 0 none = some (⟨".opd", true, [⟨0, .R_PPC64_ADDR64, 1, 0x20⟩]⟩ : InputSection) ∧
    (({ symbols := [⟨true, some 0, 0, .STT_FUNC, 0⟩, ⟨true, some 1, 0, .STT_SECTION, 1⟩], sections := [some ⟨".opd", true, [⟨0, .R_PPC64_ADDR64, 1, 0x20⟩]⟩, some ⟨".text", true, []⟩] } : ObjectFile).symbols.getD 0 defaultSymbol).owned = true ∧
    (({ symbols := [⟨true, some 0, 0, .STT_FUNC, 0⟩, ⟨true, some 1, 0, .STT_SECTION, 1⟩], sections := [some ⟨".opd", true, [⟨0, .R_PPC64_ADDR64, 1, 0x20⟩]⟩, some ⟨".text", true, []⟩] } : ObjectFile).symbols.getD 0 defaultSymbol).isec = some 0 ∧
    ((({ symbols := [⟨true, some 0, 0, .STT_FUNC, 0⟩, ⟨true, some 1, 0, .STT_SECTION, 1⟩], sections := [some ⟨".opd", true, [⟨0, .R_PPC64_ADDR64, 1, 0x20⟩]⟩, some ⟨".text", true, []⟩] } : ObjectFile).symbols.getD 0 defaultSymbol).stt = .STT_FUNC ∨ (({ symbols := [⟨true, some 0, 0, .STT_FUNC, 0⟩, ⟨true, some 1, 0, .STT_SECTION, 1⟩], sections := [some ⟨".opd", true, [⟨0, .R_PPC64_ADDR64, 1, 0x20⟩]⟩, some ⟨".text", true, []⟩] } : ObjectFile).symbols.getD 0 defaultSymbol).stt = .STT_GNU_IFUNC) ∧
    ((∀ file', ppc64v1_rewrite_opd_file ({ symbols := [⟨true, some 0, 0, .STT_FUNC, 0⟩, ⟨true, some 1, 0, .STT_SECTION, 1⟩], sections := [some ⟨".opd", true, [⟨0, .R_PPC64_ADDR64, 1, 0x20⟩]⟩, some ⟨".text", true, []⟩] } : ObjectFile) = .ok file' →
       ∃ rel, get_relocation_at (⟨".opd", true, [⟨0, .R_PPC64_ADDR64, 1, 0x20⟩]⟩ : InputSection).rels (({ symbols := [⟨true, some 0, 0, .STT_FUNC, 0⟩, ⟨true, some 1, 0, .STT_SECTION, 1⟩], sections := [some ⟨".opd", true, [⟨0, .R_PPC64_ADDR64, 1, 0x20⟩]⟩, some ⟨".text", true, []⟩] } : ObjectFile).symbols.getD 0 defaultSymbol).value = some rel ∧
         (({ symbols := [⟨true, some 0, 0, .STT_FUNC, 0⟩, ⟨true, some 1, 0, .STT_SECTION, 1⟩], sections := [some ⟨".opd", true, [⟨0, .R_PPC64_ADDR64, 1, 0x20⟩]⟩, some ⟨".text", true, []⟩] } : ObjectFile).symbols.getD rel.r_sym defaultSymbol).stt = .STT_SECTION ∧
         file'.symbols.getD 0 defaultSymbol = { ({ symbols := [⟨true, some 0, 0, .STT_FUNC, 0⟩, ⟨true, some 1, 0, .STT_SECTION, 1⟩], sections := [some ⟨".opd", true, [⟨0, .R_PPC64_ADDR64, 1, 0x20⟩]⟩, some ⟨".text", true, []⟩] } : ObjectFile).symbols.getD 0 defaultSymbol with isec := (({ symbols := [⟨true, some 0, 0, .STT_FUNC, 0⟩, ⟨true, some 1, 0, .STT_SECTION, 1⟩], sections := [some ⟨".opd", true, [⟨0, .R_PPC64_ADDR64, 1, 0x20⟩]⟩, some ⟨".text", true, []⟩] } : ObjectFile).symbols.getD rel.r_sym defaultSymbol).isec, value := rel.r_addend }) ∧
     ((get_relocation_at (⟨".opd", true, [⟨0, .R_PPC64_ADDR64, 1, 0x20⟩]⟩ : InputSection).rels (({ symbols := [⟨true, some 0, 0, .STT_FUNC, 0⟩, ⟨true, some 1, 0, .STT_SECTION, 1⟩], sections := [some ⟨".opd", true, [⟨0, .R_PPC64_ADDR64, 1, 0x20⟩]⟩, some ⟨".text", true, []⟩] } : ObjectFile).symbols.getD 0 defaultSymbol).value = none ∨
       (∀ rel, get_relocation_at (⟨".opd", true, [⟨0, .R_PPC64_ADDR64, 1, 0x20⟩]⟩ : InputSection).rels (({ symbols := [⟨true, some 0, 0, .STT_FUNC, 0⟩, ⟨true, some 1, 0, .STT_SECTION, 1⟩], sections := [some ⟨".opd", true, [⟨0, .R_PPC64_ADDR64, 1, 0x20⟩]⟩, some ⟨".text", true, []⟩] } : ObjectFile).symbols.getD 0 defaultSymbol).value = some rel →
         (({ symbols := [⟨true, some 0, 0, .STT_FUNC, 0⟩, ⟨true, some 1, 0, .STT_SECTION, 1⟩], sections := [some ⟨".opd", true, [⟨0, .R_PPC64_ADDR64, 1, 0x20⟩]⟩, some ⟨".text", true, []⟩] } : ObjectFile).symbols.getD rel.r_sym defaultSymbol).stt ≠ .STT_SECTION)) →
       ∃ e, ppc64v1_rewrite_opd_file ({ symbols := [⟨true, some 0, 0, .STT_FUNC, 0⟩, ⟨true, some 1, 0, .STT_SECTION, 1⟩], sections := [some ⟨".opd", true, [⟨0, .R_PPC64_ADDR64, 1, 0x20⟩]⟩, some ⟨".text", true, []⟩] } : ObjectFile) = .error e)) :=
  ⟨rfl, rfl, rfl, rfl, Or.inl rfl,
   c1_opd_rewrite_function_syms { symbols := [⟨true, some 0, 0, .STT_FUNC, 0⟩, ⟨true, some 1, 0, .STT_SECTION, 1⟩], sections := [some ⟨".opd", true, [⟨0, .R_PPC64_ADDR64, 1, 0x20⟩]⟩, some ⟨".text", true, []⟩] } 0 (⟨".opd", true, [⟨0, .R_PPC64_ADDR64, 1, 0x20⟩]⟩ : InputSection) rfl rfl 0 rfl rfl (Or.inl rfl)⟩

/-- **C2** witness. -/
theorem c2_witness :
    get_opd_section ({ symbols := [⟨true, some 0, 0, .STT_FUNC, 0⟩, ⟨true, some 1, 0, .STT_SECTION, 1⟩, ⟨true, some 0, 0, .STT_SECTION, 2⟩], sections := [some ⟨".opd", true, [⟨0, .R_PPC64_ADDR64, 1, 0x20⟩]⟩, some ⟨".text", true, [⟨4, .R_PPC64_REL24, 2, 0⟩]⟩] } : ObjectFile) = some 0 ∧
    ({ symbols := [⟨true, some 0, 0, .STT_FUNC, 0⟩, ⟨true, some 1, 0, .STT_SECTION, 1⟩, ⟨true, some 0, 0, .STT_SECTION, 2⟩], sections := [some ⟨".opd", true, [⟨0, .R_PPC64_ADDR64, 1, 0x20⟩]⟩, some ⟨".text", true, [⟨4, .R_PPC64_REL24, 2, 0⟩]⟩] } : ObjectFile).sections.getD 0 none = some (⟨".opd", true, [⟨0, .R_PPC64_ADDR64, 1, 0x20⟩]⟩ : InputSection) ∧
    ((∀ file', ppc64v1_rewrite_opd_file ({ symbols := [⟨true, some 0, 0, .STT_FUNC, 0⟩, ⟨true, some 1, 0, .STT_SECTION, 1⟩, ⟨true, some 0, 0, .STT_SECTION, 2⟩], sections := [some ⟨".opd", true, [⟨0, .R_PPC64_ADDR64, 1, 0x20⟩]⟩, some ⟨".text", true, [⟨4, .R_PPC64_REL24, 2, 0⟩]⟩] } : ObjectFile) = .ok file' →
      file'.sections.getD 0 none = some { (⟨".opd", true, [⟨0, .R_PPC64_ADDR64, 1, 0x20⟩]⟩ : InputSection) with is_alive := false } ∧
      ∀ k isec, k ≠ 0 → ({ symbols := [⟨true, some 0, 0, .STT_FUNC, 0⟩, ⟨true, some 1, 0, .STT_SECTION, 1⟩, ⟨true, some 0, 0, .STT_SECTION, 2⟩], sections := [some ⟨".opd", true, [⟨0, .R_PPC64_ADDR64, 1, 0x20⟩]⟩, some ⟨".text", true, [⟨4, .R_PPC64_REL24, 2, 0⟩]⟩] } : ObjectFile).sections.getD k none = some isec →
        isec.is_alive = true →
        ∃ isec', file'.sections.getD k none = some isec' ∧
          isec'.name = isec.name ∧ isec'.is_alive = true ∧
          isec'.rels.length = isec.rels.length ∧
          ∀ m (hm : m < isec.rels.length),
            (if (specUpdate ({ symbols := [⟨true, some 0, 0, .STT_FUNC, 0⟩, ⟨true, some 1, 0, .STT_SECTION, 1⟩, ⟨true, some 0, 0, .STT_SECTION, 2⟩], sections := [some ⟨".opd", true, [⟨0, .R_PPC64_ADDR64, 1, 0x20⟩]⟩, some ⟨".text", true, [⟨4, .R_PPC64_REL24, 2, 0⟩]⟩] } : ObjectFile).symbols 0 (⟨".opd", true, [⟨0, .R_PPC64_ADDR64, 1, 0x20⟩]⟩ : InputSection).rels (({ symbols := [⟨true, some 0, 0, .STT_FUNC, 0⟩, ⟨true, some 1, 0, .STT_SECTION, 1⟩, ⟨true, some 0, 0, .STT_SECTION, 2⟩], sections := [some ⟨".opd", true, [⟨0, .R_PPC64_ADDR64, 1, 0x20⟩]⟩, some ⟨".text", true, [⟨4, .R_PPC64_REL24, 2, 0⟩]⟩] } : ObjectFile).symbols.getD (isec.rels.get ⟨m, hm⟩).r_sym defaultSymbol)).isec = some 0
             then ∃ jj, jj < ({ symbols := [⟨true, some 0, 0, .STT_FUNC, 0⟩, ⟨true, some 1, 0, .STT_SECTION, 1⟩, ⟨true, some 0, 0, .STT_SECTION, 2⟩], sections := [some ⟨".opd", true, [⟨0, .R_PPC64_ADDR64, 1, 0x20⟩]⟩, some ⟨".text", true, [⟨4, .R_PPC64_REL24, 2, 0⟩]⟩] } : ObjectFile).symbols.length ∧
               filterCond 0 (({ symbols := [⟨true, some 0, 0, .STT_FUNC, 0⟩, ⟨true, some 1, 0, .STT_SECTION, 1⟩, ⟨true, some 0, 0, .STT_SECTION, 2⟩], sections := [some ⟨".opd", true, [⟨0, .R_PPC64_ADDR64, 1, 0x20⟩]⟩, some ⟨".text", true, [⟨4, .R_PPC64_REL24, 2, 0⟩]⟩] } : ObjectFile).symbols.getD jj defaultSymbol) = true ∧
               (({ symbols := [⟨true, some 0, 0, .STT_FUNC, 0⟩, ⟨true, some 1, 0, .STT_SECTION, 1⟩, ⟨true, some 0, 0, .STT_SECTION, 2⟩], sections := [some ⟨".opd", true, [⟨0, .R_PPC64_ADDR64, 1, 0x20⟩]⟩, some ⟨".text", true, [⟨4, .R_PPC64_REL24, 2, 0⟩]⟩] } : ObjectFile).symbols.getD jj defaultSymbol).value = (isec.rels.get ⟨m, hm⟩).r_addend ∧
               isec'.rels.getD m ⟨0, .R_NONE, 0, 0⟩ = { isec.rels.get ⟨m, hm⟩ with r_sym := (({ symbols := [⟨true, some 0, 0, .STT_FUNC, 0⟩, ⟨true, some 1, 0, .STT_SECTION, 1⟩, ⟨true, some 0, 0, .STT_SECTION, 2⟩], sections := [some ⟨".opd", true, [⟨0, .R_PPC64_ADDR64, 1, 0x20⟩]⟩, some ⟨".text", true, [⟨4, .R_PPC64_REL24, 2, 0⟩]⟩] } : ObjectFile).symbols.getD jj defaultSymbol).sym_idx, r_addend := 0 }
             else isec'.rels.getD m ⟨0, .R_NONE, 0, 0⟩ = isec.rels.get ⟨m, hm⟩)) ∧
    ((∃ k isec, k ≠ 0 ∧ ({ symbols := [⟨true, some 0, 0, .STT_FUNC, 0⟩, ⟨true, some 1, 0, .STT_SECTION, 1⟩, ⟨true, some 0, 0, .STT_SECTION, 2⟩], sections := [some ⟨".opd", true, [⟨0, .R_PPC64_ADDR64, 1, 0x20⟩]⟩, some ⟨".text", true, [⟨4, .R_PPC64_REL24, 2, 0⟩]⟩] } : ObjectFile).sections.getD k none = some isec ∧
        isec.is_alive = true ∧
        ∃ m, ∃ hm : m < isec.rels.length,
          (specUpdate ({ symbols := [⟨true, some 0, 0, .STT_FUNC, 0⟩, ⟨true, some 1, 0, .STT_SECTION, 1⟩, ⟨true, some 0, 0, .STT_SECTION, 2⟩], sections := [some ⟨".opd", true, [⟨0, .R_PPC64_ADDR64, 1, 0x20⟩]⟩, some ⟨".text", true, [⟨4, .R_PPC64_REL24, 2, 0⟩]⟩] } : ObjectFile).symbols 0 (⟨".opd", true, [⟨0, .R_PPC64_ADDR64, 1, 0x20⟩]⟩ : InputSection).rels (({ symbols := [⟨true, some 0, 0, .STT_FUNC, 0⟩, ⟨true, some 1, 0, .STT_SECTION, 1⟩, ⟨true, some 0, 0, .STT_SECTION, 2⟩], sections := [some ⟨".opd", true, [⟨0, .R_PPC64_ADDR64, 1, 0x20⟩]⟩, some ⟨".text", true, [⟨4, .R_PPC64_REL24, 2, 0⟩]⟩] } : ObjectFile).symbols.getD (isec.rels.get ⟨m, hm⟩).r_sym defaultSymbol)).isec = some 0 ∧
          ¬∃ jj, jj < ({ symbols := [⟨true, some 0, 0, .STT_FUNC, 0⟩, ⟨true, some 1, 0, .STT_SECTION, 1⟩, ⟨true, some 0, 0, .STT_SECTION, 2⟩], sections := [some ⟨".opd", true, [⟨0, .R_PPC64_ADDR64, 1, 0x20⟩]⟩, some ⟨".text", true, [⟨4, .R_PPC64_REL24, 2, 0⟩]⟩] } : ObjectFile).symbols.length ∧
            filterCond 0 (({ symbols := [⟨true, some 0, 0, .STT_FUNC, 0⟩, ⟨true, some 1, 0, .STT_SECTION, 1⟩, ⟨true, some 0, 0, .STT_SECTION, 2⟩], sections := [some ⟨".opd", true, [⟨0, .R_PPC64_ADDR64, 1, 0x20⟩]⟩, some ⟨".text", true, [⟨4, .R_PPC64_REL24, 2, 0⟩]⟩] } : ObjectFile).symbols.getD jj defaultSymbol) = true ∧
            (({ symbols := [⟨true, some 0, 0, .STT_FUNC, 0⟩, ⟨true, some 1, 0, .STT_SECTION, 1⟩, ⟨true, some 0, 0, .STT_SECTION, 2⟩], sections := [some ⟨".opd", true, [⟨0, .R_PPC64_ADDR64, 1, 0x20⟩]⟩, some ⟨".text", true, [⟨4, .R_PPC64_REL24, 2, 0⟩]⟩] } : ObjectFile).symbols.getD jj defaultSymbol).value = (isec.rels.get ⟨m, hm⟩).r_addend) →
      ∃ e, ppc64v1_rewrite_opd_file ({ symbols := [⟨true, some 0, 0, .STT_FUNC, 0⟩, ⟨true, some 1, 0, .STT_SECTION, 1⟩, ⟨true, some 0, 0, .STT_SECTION, 2⟩], sections := [some ⟨".opd", true, [⟨0, .R_PPC64_ADDR64, 1, 0x20⟩]⟩, some ⟨".text", true, [⟨4, .R_PPC64_REL24, 2, 0⟩]⟩] } : ObjectFile) = .error e)) :=
  ⟨rfl, rfl, c2_opd_rewrite_relocations { symbols := [⟨true, some 0, 0, .STT_FUNC, 0⟩, ⟨true, some 1, 0, .STT_SECTION, 1⟩, ⟨true, some 0, 0, .STT_SECTION, 2⟩], sections := [some ⟨".opd", true, [⟨0, .R_PPC64_ADDR64, 1, 0x20⟩]⟩, some ⟨".text", true, [⟨4, .R_PPC64_REL24, 2, 0⟩]⟩] } 0 (⟨".opd", true, [⟨0, .R_PPC64_ADDR64, 1, 0x20⟩]⟩ : InputSection) rfl rfl⟩
